import Mathlib

/-!
Verification of the data-generation procedure of `src/data/generate_data.py`
(synthetic e-commerce data generator).

The script is a linear pipeline of generator stages, each issuing parameterized
inserts against a relational schema, committing as it goes, with a single
top-level `try/except` doing a rollback on failure.

Embedding choices:
* Monetary values, dates and uniform draws are rationals (`ℚ`); Python's
  `round(x, 2)` becomes `round2` below.
* Randomness is modelled as pre-drawn entropy: every call the script makes to
  `random.randint`, `random.uniform`, `random.random`, `random.choice`,
  `random.sample` or a `faker` method reads a dedicated field of a per-row
  choice structure, transformed so that the result always lies in the range
  the Python primitive guarantees (`randint a b` maps an arbitrary seed into
  `[a, b]`, `uniform a b` clamps a draw into `[a, b]`, `choice` indexes
  modulo the pool length, `sample` picks without replacement by index).
* The database is a record of row lists with serial-id counters; the psycopg2
  transaction is modelled by a pair (committed snapshot, current view) with
  `commit` and `rollback` moving between them.
-/

namespace EcomGen

/-- Python `round(q, 2)`: round to 2 decimal places (to the nearest cent). -/
def round2 (q : ℚ) : ℚ := (round (q * 100) : ℤ) / 100

/-- `random.randint a b` (inclusive both ends), driven by an arbitrary seed:
the seed is reduced modulo the size of the range. -/
def randint (a b s : ℕ) : ℕ := a + s % (b - a + 1)

/-- Clamp a rational into `[0, 1]`; used to turn an arbitrary pre-drawn
rational into a unit-interval draw. -/
def clampUnit (u : ℚ) : ℚ := max 0 (min 1 u)

/-- `random.uniform a b`, driven by a pre-drawn rational `u`. -/
def uniform (a b u : ℚ) : ℚ := a + (b - a) * clampUnit u

/-- `random.choice xs`, driven by a seed; `d` is a default that is only
returned when `xs` is empty (where Python would raise `IndexError`). -/
def choice {α : Type} (xs : List α) (d : α) (s : ℕ) : α :=
  xs.getD (s % xs.length) d

/-- `random.sample pool k`: `k` distinct positions chosen without
replacement, driven by a list of index seeds.  When `k` exceeds the pool
size (where Python raises `ValueError`) the pool is exhausted and the
result is just the remaining pool's length; the script always calls it
with `k ≤ pool.length`. -/
def sample {α : Type} : List α → ℕ → List ℕ → List α
  | _, 0, _ => []
  | [], _ + 1, _ => []
  | x :: xs, k + 1, seeds =>
      let l := x :: xs
      let i := seeds.headD 0 % l.length
      l.getD i x :: sample (l.eraseIdx i) k seeds.tail

/-! ### Basic properties of the random primitives -/

theorem randint_le_left (a b s : ℕ) : a ≤ randint a b s := Nat.le_add_right a _

theorem randint_le_right (a b s : ℕ) (h : a ≤ b) : randint a b s ≤ b := by
  have hlt : s % (b - a + 1) < b - a + 1 := Nat.mod_lt _ (Nat.succ_pos _)
  have : s % (b - a + 1) ≤ b - a := Nat.lt_succ_iff.mp hlt
  unfold randint
  omega

theorem clampUnit_nonneg (u : ℚ) : 0 ≤ clampUnit u := le_max_left 0 _

theorem clampUnit_le_one (u : ℚ) : clampUnit u ≤ 1 := by
  unfold clampUnit
  exact max_le (by norm_num) (min_le_left 1 u)

theorem uniform_le_left (a b u : ℚ) (h : a ≤ b) : a ≤ uniform a b u := by
  have := clampUnit_nonneg u
  have : 0 ≤ (b - a) * clampUnit u := mul_nonneg (by linarith) this
  unfold uniform; linarith

theorem uniform_le_right (a b u : ℚ) (h : a ≤ b) : uniform a b u ≤ b := by
  have h1 := clampUnit_le_one u
  have h0 := clampUnit_nonneg u
  have : (b - a) * clampUnit u ≤ (b - a) * 1 :=
    mul_le_mul_of_nonneg_left h1 (by linarith)
  unfold uniform; linarith

theorem choice_mem {α : Type} (xs : List α) (d : α) (s : ℕ) (h : xs ≠ []) :
    choice xs d s ∈ xs := by
  unfold choice
  have hlen : 0 < xs.length := List.length_pos.mpr h
  have hi : s % xs.length < xs.length := Nat.mod_lt _ hlen
  rw [List.getD_eq_getElem _ _ hi]
  exact List.getElem_mem _

theorem round2_sub_le (q : ℚ) : |round2 q - q| ≤ 1 / 200 := by
  have h := abs_sub_round (q * 100)
  rw [abs_sub_comm] at h
  unfold round2
  have heq : (round (q * 100) : ℚ) / 100 - q = (↑(round (q * 100)) - q * 100) / 100 := by
    ring
  rw [heq, abs_div]
  rw [show |(100 : ℚ)| = 100 by norm_num]
  rw [div_le_div_iff₀ (by norm_num) (by norm_num)]
  linarith

theorem round2_mono {p q : ℚ} (h : p ≤ q) : round2 p ≤ round2 q := by
  unfold round2
  have hr : round (p * 100) ≤ round (q * 100) := by
    rw [round_eq, round_eq]
    exact Int.floor_le_floor (by linarith)
  rw [div_le_div_iff_of_pos_right (show (0:ℚ) < 100 by norm_num)]
  exact_mod_cast hr

theorem sample_zero {α : Type} (xs : List α) (seeds : List ℕ) :
    sample xs 0 seeds = [] := by
  cases xs <;> rfl

theorem sample_cons {α : Type} (x : α) (xs : List α) (k : ℕ) (seeds : List ℕ) :
    sample (x :: xs) (k + 1) seeds =
      (x :: xs).getD (seeds.headD 0 % (x :: xs).length) x ::
        sample ((x :: xs).eraseIdx (seeds.headD 0 % (x :: xs).length)) k seeds.tail :=
  rfl

theorem sample_subset {α : Type} (k : ℕ) :
    ∀ (xs : List α) (seeds : List ℕ), ∀ y ∈ sample xs k seeds, y ∈ xs := by
  induction k with
  | zero => intro xs seeds y hy; rw [sample_zero] at hy; cases hy
  | succ k ih =>
      intro xs seeds y hy
      cases xs with
      | nil => cases hy
      | cons x xs =>
          rw [sample_cons, List.mem_cons] at hy
          set l := x :: xs with hl
          set i := seeds.headD 0 % l.length with hi
          have hilt : i % l.length < l.length := Nat.mod_lt _ (by simp [hl])
          have hi' : i < l.length := Nat.mod_lt _ (by simp [hl])
          rcases hy with hy | hy
          · subst hy
            rw [List.getD_eq_getElem _ _ hi']
            exact List.getElem_mem hi'
          · exact (List.eraseIdx_sublist l i).mem (ih _ _ y hy)

theorem sample_length {α : Type} (k : ℕ) :
    ∀ (xs : List α) (seeds : List ℕ), k ≤ xs.length →
      (sample xs k seeds).length = k := by
  induction k with
  | zero => intro xs seeds _; rw [sample_zero]; rfl
  | succ k ih =>
      intro xs seeds h
      cases xs with
      | nil => simp at h
      | cons x xs =>
          rw [sample_cons]
          set l := x :: xs with hl
          set i := seeds.headD 0 % l.length with hi
          have hi' : i < l.length := Nat.mod_lt _ (by simp [hl])
          have hlen : (l.eraseIdx i).length + 1 = l.length :=
            List.length_eraseIdx_add_one hi'
          simp only [List.length_cons]
          rw [ih _ _ (by omega)]

theorem getElem_not_mem_eraseIdx {α : Type} {l : List α} {i : ℕ}
    (hnd : l.Nodup) (hi : i < l.length) : l[i] ∉ l.eraseIdx i := by
  intro hmem
  rw [List.mem_eraseIdx_iff_getElem] at hmem
  obtain ⟨j, hj, hne, hget⟩ := hmem
  exact hne ((hnd.getElem_inj_iff).mp hget)

theorem sample_nodup {α : Type} (k : ℕ) :
    ∀ (xs : List α) (seeds : List ℕ), xs.Nodup → (sample xs k seeds).Nodup := by
  induction k with
  | zero => intro xs seeds _; rw [sample_zero]; exact List.nodup_nil
  | succ k ih =>
      intro xs seeds h
      cases xs with
      | nil => rw [show sample ([] : List α) (k+1) seeds = [] from rfl]; exact List.nodup_nil
      | cons x xs =>
          rw [sample_cons]
          set l := x :: xs with hl
          set i := seeds.headD 0 % l.length with hi
          have hi' : i < l.length := Nat.mod_lt _ (by simp [hl])
          rw [List.nodup_cons]
          refine ⟨?_, ih _ _ ((List.eraseIdx_sublist l i).nodup h)⟩
          rw [List.getD_eq_getElem _ _ hi']
          intro hmem
          exact getElem_not_mem_eraseIdx h hi' (sample_subset _ _ _ _ hmem)

/-! ### Row types and database state

One structure per table of the schema the script inserts into; dates and
datetimes are rationals, money is rational, serial primary keys are
naturals handed out by per-table counters in `DB`. -/

/-- A row of `categories`. -/
structure Category where
  category_id : ℕ
  category_name : String
  description : String
deriving DecidableEq

/-- A row of `suppliers`. -/
structure Supplier where
  supplier_id : ℕ
  supplier_name : String
  country : String
  contact_email : String
  rating : ℚ
  active : Bool
deriving DecidableEq

/-- A row of `products`. -/
structure Product where
  product_id : ℕ
  product_name : String
  category_id : ℕ
  supplier_id : ℕ
  price : ℚ
  cost : ℚ
  sku : String
  description : String
  active : Bool
deriving DecidableEq

/-- A row of `warehouses`. -/
structure Warehouse where
  warehouse_id : ℕ
  warehouse_name : String
  country : String
  city : String
  active : Bool
deriving DecidableEq

/-- A row of `inventory`. -/
structure InventoryRow where
  product_id : ℕ
  warehouse_id : ℕ
  stock_quantity : ℕ
  reorder_level : ℕ
  last_restocked_date : ℚ
deriving DecidableEq

/-- A row of `customers`. -/
structure Customer where
  customer_id : ℕ
  first_name : String
  last_name : String
  email : String
  phone : String
  country : String
  city : String
  registration_date : ℚ
  segment : String
deriving DecidableEq

/-- A row of `orders`. -/
structure Order where
  order_id : ℕ
  customer_id : ℕ
  order_date : ℚ
  status : String
  total_amount : ℚ
  discount_amount : ℚ
  shipping_cost : ℚ
  payment_method : String
  shipping_date : Option ℚ
  delivery_date : Option ℚ
deriving DecidableEq

/-- A row of `order_items`. -/
structure OrderItem where
  order_id : ℕ
  product_id : ℕ
  quantity : ℕ
  unit_price : ℚ
  discount_percent : ℚ
  line_total : ℚ
deriving DecidableEq

/-- A row of `reviews`. -/
structure Review where
  product_id : ℕ
  customer_id : ℕ
  rating : ℕ
  review_title : String
  review_text : Option String
  review_date : ℚ
  verified_purchase : Bool
deriving DecidableEq

/-- A row of `customer_support_tickets`. -/
structure Ticket where
  customer_id : ℕ
  issue_type : String
  priority : String
  status : String
  description : String
  created_date : ℚ
  resolved_date : Option ℚ
deriving DecidableEq

/-- The database: one list of rows per table, plus the serial-id counters
for the tables whose generated keys the script reads back. -/
structure DB where
  categories : List Category := []
  suppliers : List Supplier := []
  products : List Product := []
  warehouses : List Warehouse := []
  inventory : List InventoryRow := []
  customers : List Customer := []
  orders : List Order := []
  order_items : List OrderItem := []
  reviews : List Review := []
  tickets : List Ticket := []
  nextCategoryId : ℕ := 0
  nextSupplierId : ℕ := 0
  nextProductId : ℕ := 0
  nextWarehouseId : ℕ := 0
  nextCustomerId : ℕ := 0
  nextOrderId : ℕ := 0
deriving DecidableEq

/-- The empty database the script is pointed at. -/
def DB.empty : DB := {}

/-- A psycopg2 connection's view of the database: the committed snapshot
and the current view including uncommitted statements of the open
transaction. -/
structure DBState where
  committed : DB
  current : DB
deriving DecidableEq

/-- `conn.commit()`. -/
def commitTx (st : DBState) : DBState := ⟨st.current, st.current⟩

/-- `conn.rollback()`: discard the uncommitted statements. -/
def rollbackTx (st : DBState) : DBState := ⟨st.committed, st.committed⟩

/-! ### Pre-drawn entropy, one choice structure per generated row -/

/-- Entropy for one supplier row. -/
structure SupplierChoices where
  name : String := ""
  country : String := ""
  email : String := ""
  ratingU : ℚ := 0
deriving Inhabited

/-- Entropy for one product row. -/
structure ProductChoices where
  costU : ℚ := 0
  markupU : ℚ := 0
  adjSeed : ℕ := 0
  nounSeed : ℕ := 0
  catSeed : ℕ := 0
  supSeed : ℕ := 0
  sku : String := ""
  descr : String := ""
deriving Inhabited

/-- Entropy for one warehouse row. -/
structure WarehouseChoices where
  city : String := ""
  country : String := ""
  city2 : String := ""
deriving Inhabited

/-- Entropy for one inventory row (stock, reorder level, restock date). -/
structure InvItemChoices where
  stockSeed : ℕ := 0
  reorderSeed : ℕ := 0
  restocked : ℚ := 0
deriving Inhabited

/-- Entropy for one product's inventory loop iteration. -/
structure InventoryChoices where
  numWhSeed : ℕ := 0
  whSeeds : List ℕ := []
  rows : List InvItemChoices := []
deriving Inhabited

/-- Entropy for one customer row. -/
structure CustomerChoices where
  firstName : String := ""
  lastName : String := ""
  email : String := ""
  phone : String := ""
  country : String := ""
  city : String := ""
  regDate : ℚ := 0
deriving Inhabited

/-- Entropy for one order item. -/
structure ItemChoices where
  qtySeed : ℕ := 0
  discRoll : ℚ := 1
  discU : ℚ := 0
deriving Inhabited

/-- Entropy for one order (and its items). -/
structure OrderChoices where
  custSeed : ℕ := 0
  orderDate : ℚ := 0
  statusSeed : ℕ := 0
  shipSeed : ℕ := 0
  delivSeed : ℕ := 0
  discRoll : ℚ := 1
  discU : ℚ := 0
  shipU : ℚ := 0
  paySeed : ℕ := 0
  numItemsSeed : ℕ := 0
  sampleSeeds : List ℕ := []
  items : List ItemChoices := []
deriving Inhabited

/-- Entropy for one review row. -/
structure ReviewChoices where
  prodSeed : ℕ := 0
  custSeed : ℕ := 0
  ratingSeed : ℕ := 0
  title : String := ""
  bodyRoll : ℚ := 1
  body : String := ""
  date : ℚ := 0
  verifiedSeed : ℕ := 0
deriving Inhabited

/-- Entropy for one support-ticket row. -/
structure TicketChoices where
  custSeed : ℕ := 0
  issueSeed : ℕ := 0
  prioSeed : ℕ := 0
  statusSeed : ℕ := 0
  descr : String := ""
  created : ℚ := 0
  resolvedSeed : ℕ := 0
deriving Inhabited

/-! ### The generator stages (translated from `src/data/generate_data.py`) -/

/-- The fixed category-name list of `generate_categories` (lines 35-39). -/
def categoryNames : List String :=
  ["Electronics", "Clothing", "Home & Garden", "Sports",
   "Books", "Toys", "Health & Beauty", "Automotive",
   "Food & Grocery", "Pet Supplies"]

/-- `generate_categories` (lines 31-52): insert one row per fixed name,
with a faker sentence as description, then commit happens at the wrapper.
`descrs` is the pre-drawn faker output. -/
def generate_categories (db : DB) (descrs : List String) : DB :=
  { db with
    categories := db.categories ++ categoryNames.enum.map (fun p =>
      { category_id := db.nextCategoryId + p.1
        category_name := p.2
        description := descrs.getD p.1 "" }),
    nextCategoryId := db.nextCategoryId + categoryNames.length }

/-- `SELECT category_id FROM categories` (line 51). -/
def categoryIds (db : DB) : List ℕ := db.categories.map Category.category_id

/-- `generate_suppliers` (lines 54-75): `count` rows with a rating
uniform in `[3.5, 5.0]` rounded to 2 decimals, active `True`. -/
def generate_suppliers (db : DB) (count : ℕ) (cs : List SupplierChoices) : DB :=
  { db with
    suppliers := db.suppliers ++ (List.range count).map (fun i =>
      let c := cs.getD i default
      { supplier_id := db.nextSupplierId + i
        supplier_name := c.name
        country := c.country
        contact_email := c.email
        rating := round2 (uniform (7/2) 5 c.ratingU)
        active := true }),
    nextSupplierId := db.nextSupplierId + count }

/-- `SELECT supplier_id FROM suppliers` (line 74). -/
def supplierIds (db : DB) : List ℕ := db.suppliers.map Supplier.supplier_id

/-- The adjective pool of `generate_products` (line 82). -/
def adjectives : List String :=
  ["Premium", "Ultra", "Pro", "Classic", "Smart", "Eco", "Deluxe"]

/-- The noun pool of `generate_products` (line 83). -/
def nouns : List String :=
  ["Widget", "Gadget", "Device", "Tool", "Kit", "Set", "System"]

/-- One product row of `generate_products` (lines 85-102): cost uniform in
`[10, 300]` rounded to 2 decimals, price = cost times a uniform markup in
`[1.5, 3.0]` rounded to 2 decimals, category and supplier chosen with
replacement from the id lists. -/
def mkProduct (nid i : ℕ) (category_ids supplier_ids : List ℕ)
    (c : ProductChoices) : Product :=
  let cost := round2 (uniform 10 300 c.costU)
  let price := round2 (cost * uniform (3/2) 3 c.markupU)
  { product_id := nid + i
    product_name :=
      choice adjectives "Premium" c.adjSeed ++ " " ++
        choice nouns "Widget" c.nounSeed ++ " " ++ toString (i + 1)
    category_id := choice category_ids 0 c.catSeed
    supplier_id := choice supplier_ids 0 c.supSeed
    price := price
    cost := cost
    sku := "SKU-" ++ c.sku
    description := c.descr
    active := true }

/-- `generate_products` (lines 77-111). -/
def generate_products (db : DB) (category_ids supplier_ids : List ℕ)
    (count : ℕ) (cs : List ProductChoices) : DB :=
  { db with
    products := db.products ++ (List.range count).map (fun i =>
      mkProduct db.nextProductId i category_ids supplier_ids (cs.getD i default)),
    nextProductId := db.nextProductId + count }

/-- `SELECT product_id FROM products` (line 110). -/
def productIds (db : DB) : List ℕ := db.products.map Product.product_id

/-- `generate_warehouses` (lines 113-133). -/
def generate_warehouses (db : DB) (count : ℕ) (cs : List WarehouseChoices) : DB :=
  { db with
    warehouses := db.warehouses ++ (List.range count).map (fun i =>
      let c := cs.getD i default
      { warehouse_id := db.nextWarehouseId + i
        warehouse_name := c.city ++ " Distribution Center"
        country := c.country
        city := c.city2
        active := true }),
    nextWarehouseId := db.nextWarehouseId + count }

/-- `SELECT warehouse_id FROM warehouses` (line 132). -/
def warehouseIds (db : DB) : List ℕ := db.warehouses.map Warehouse.warehouse_id

/-- The inventory rows one product gets (lines 142-158): 1 or 2 warehouses
sampled without replacement, capped at the number of warehouses. -/
def invRowsFor (warehouse_ids : List ℕ) (pid : ℕ) (c : InventoryChoices) :
    List InventoryRow :=
  let num_wh := randint 1 2 c.numWhSeed
  let selected_wh := sample warehouse_ids (min num_wh warehouse_ids.length) c.whSeeds
  selected_wh.enum.map (fun p =>
    let rc := c.rows.getD p.1 default
    { product_id := pid
      warehouse_id := p.2
      stock_quantity := randint 0 500 rc.stockSeed
      reorder_level := randint 10 50 rc.reorderSeed
      last_restocked_date := rc.restocked })

/-- The body of `generate_inventory`'s loop over `product_ids`, consuming
one `InventoryChoices` per product. -/
def genInvRows (warehouse_ids : List ℕ) : List ℕ → List InventoryChoices →
    List InventoryRow
  | [], _ => []
  | pid :: rest, cs =>
      invRowsFor warehouse_ids pid (cs.headD default) ++
        genInvRows warehouse_ids rest cs.tail

/-- `generate_inventory` (lines 135-161). -/
def generate_inventory (db : DB) (product_ids warehouse_ids : List ℕ)
    (cs : List InventoryChoices) : DB :=
  { db with inventory := db.inventory ++ genInvRows warehouse_ids product_ids cs }

/-- `generate_customers` (lines 163-191): `count` rows, all in segment
`"New"`. -/
def generate_customers (db : DB) (count : ℕ) (cs : List CustomerChoices) : DB :=
  { db with
    customers := db.customers ++ (List.range count).map (fun i =>
      let c := cs.getD i default
      { customer_id := db.nextCustomerId + i
        first_name := c.firstName
        last_name := c.lastName
        email := c.email
        phone := c.phone
        country := c.country
        city := c.city
        registration_date := c.regDate
        segment := "New" }),
    nextCustomerId := db.nextCustomerId + count }

/-- `SELECT customer_id FROM customers` (line 190). -/
def customerIds (db : DB) : List ℕ := db.customers.map Customer.customer_id

/-- The weighted status pool of `generate_orders` (line 198). -/
def orderStatuses : List String :=
  ["Delivered", "Delivered", "Delivered", "Shipped", "Processing"]

/-- The payment-method pool of `generate_orders` (line 199). -/
def paymentMethods : List String := ["Credit Card", "Debit Card", "PayPal"]

/-- `SELECT price FROM products WHERE product_id = %s` (line 238): a
lookup in the products table; the script then reads `result[0]`, so the
row is assumed to exist (Python would crash on a missing product). -/
def priceOf (prods : List Product) (pid : ℕ) : ℚ :=
  ((prods.find? (fun p => p.product_id == pid)).map Product.price).getD 0

/-- One order item (lines 237-251): quantity in `[1, 3]`, a line discount
percent that is 0 with probability 0.85 and otherwise uniform in
`[0, 20]` rounded to 2 decimals, and the rounded line total. -/
def mkOrderItem (prods : List Product) (oid pid : ℕ) (c : ItemChoices) : OrderItem :=
  let unit_price := priceOf prods pid
  let quantity := randint 1 3 c.qtySeed
  let disc_pct := if clampUnit c.discRoll < 3/20 then round2 (uniform 0 20 c.discU) else 0
  let line_total := round2 (unit_price * quantity * (1 - disc_pct / 100))
  { order_id := oid
    product_id := pid
    quantity := quantity
    unit_price := unit_price
    discount_percent := disc_pct
    line_total := line_total }

/-- The items of one order, consuming one `ItemChoices` per selected
product. -/
def mkOrderItems (prods : List Product) (oid : ℕ) :
    List ℕ → List ItemChoices → List OrderItem
  | [], _ => []
  | pid :: rest, ics =>
      mkOrderItem prods oid pid (ics.headD default) ::
        mkOrderItems prods oid rest ics.tail

/-- One iteration of `generate_orders`'s loop (lines 201-257): insert the
order with a placeholder total of 0, insert its 1-4 items sampled without
replacement from `product_ids`, then update the order's total to
`round(subtotal + shipping - discount, 2)`. -/
def genOrder (db : DB) (customer_ids product_ids : List ℕ) (c : OrderChoices) : DB :=
  let customer_id := choice customer_ids 0 c.custSeed
  let order_date := c.orderDate
  let status := choice orderStatuses "Delivered" c.statusSeed
  let shipping_date : Option ℚ :=
    if status = "Shipped" ∨ status = "Delivered" then
      some (order_date + (randint 1 3 c.shipSeed : ℕ)) else none
  -- line 212 adds to `shipping_date` directly; when status is Delivered it
  -- is `some`, so the `getD` default is never used there
  let delivery_date : Option ℚ :=
    if status = "Delivered" then
      some (shipping_date.getD order_date + (randint 2 7 c.delivSeed : ℕ)) else none
  let discount := if clampUnit c.discRoll < 1/5 then round2 (uniform 0 30 c.discU) else 0
  let shipping := round2 (uniform 5 20 c.shipU)
  let order_id := db.nextOrderId
  let db1 : DB :=
    { db with
      orders := db.orders ++
        [{ order_id := order_id
           customer_id := customer_id
           order_date := order_date
           status := status
           total_amount := 0
           discount_amount := discount
           shipping_cost := shipping
           payment_method := choice paymentMethods "Credit Card" c.paySeed
           shipping_date := shipping_date
           delivery_date := delivery_date }],
      nextOrderId := db.nextOrderId + 1 }
  let num_items := randint 1 4 c.numItemsSeed
  let selected_products := sample product_ids (min num_items product_ids.length) c.sampleSeeds
  -- the price SELECTs read the products table, which this stage never writes
  let items := mkOrderItems db.products order_id selected_products c.items
  let subtotal := (items.map OrderItem.line_total).sum
  let db2 : DB := { db1 with order_items := db1.order_items ++ items }
  let total := round2 (subtotal + shipping - discount)
  { db2 with
    orders := db2.orders.map (fun o =>
      if o.order_id = order_id then { o with total_amount := total } else o) }

/-- The pure-database effect of `generate_orders` (lines 193-264),
consuming one `OrderChoices` per order. -/
def genOrdersDB (db : DB) (customer_ids product_ids : List ℕ)
    (count : ℕ) (cs : List OrderChoices) : DB :=
  ((List.range count).map (fun i => cs.getD i default)).foldl
    (fun d c => genOrder d customer_ids product_ids c) db

/-- `generate_orders` on a connection: the loop body plus the
batch commit every 500 orders (lines 259-260) and the final commit
(line 263). -/
def generate_orders (st : DBState) (customer_ids product_ids : List ℕ)
    (count : ℕ) (cs : List OrderChoices) : DBState :=
  commitTx ((List.range count).foldl (fun s i =>
    let s1 : DBState :=
      { s with current := genOrder s.current customer_ids product_ids (cs.getD i default) }
    if (i + 1) % 500 = 0 then commitTx s1 else s1) st)

/-- `generate_reviews` (lines 266-290). -/
def generate_reviews (db : DB) (customer_ids product_ids : List ℕ)
    (count : ℕ) (cs : List ReviewChoices) : DB :=
  { db with
    reviews := db.reviews ++ (List.range count).map (fun i =>
      let c := cs.getD i default
      { product_id := choice product_ids 0 c.prodSeed
        customer_id := choice customer_ids 0 c.custSeed
        rating := randint 1 5 c.ratingSeed
        review_title := c.title
        review_text := if clampUnit c.bodyRoll < 3/5 then some c.body else none
        review_date := c.date
        verified_purchase := choice [true, false] true c.verifiedSeed }) }

/-- The issue-type pool of `generate_tickets` (line 297). -/
def issueTypes : List String :=
  ["Product Issue", "Shipping Delay", "Payment Issue", "Return Request"]

/-- The priority pool of `generate_tickets` (line 298). -/
def priorities : List String := ["Low", "Medium", "High"]

/-- The status pool of `generate_tickets` (line 299). -/
def ticketStatuses : List String := ["Open", "In Progress", "Resolved", "Closed"]

/-- One support-ticket row (lines 301-321): `resolved_date` is set, 1-10
days after creation, exactly when the status is Resolved or Closed. -/
def mkTicket (c : TicketChoices) : Ticket :=
  let created := c.created
  let status := choice ticketStatuses "Open" c.statusSeed
  let resolved : Option ℚ :=
    if status = "Resolved" ∨ status = "Closed" then
      some (created + (randint 1 10 c.resolvedSeed : ℕ)) else none
  { customer_id := 0
    issue_type := choice issueTypes "Product Issue" c.issueSeed
    priority := choice priorities "Low" c.prioSeed
    status := status
    description := c.descr
    created_date := created
    resolved_date := resolved }

/-- `generate_tickets` (lines 292-327). -/
def generate_tickets (db : DB) (customer_ids : List ℕ) (count : ℕ)
    (cs : List TicketChoices) : DB :=
  { db with
    tickets := db.tickets ++ (List.range count).map (fun i =>
      let c := cs.getD i default
      { mkTicket c with customer_id := choice customer_ids 0 c.custSeed }) }

/-! ### The pipeline (`main`, lines 329-359) with its transaction model

A database error can surface on any statement; we model the environment's
choice of when a failure happens as `failAt : Option ℕ`: `some k` means an
exception is raised when stage `k` (0-based, in `main`'s call order) issues
its first statement.  `runStages` returns `Except.error` with the
connection state at the moment of the exception. -/

/-- All the entropy one full run consumes. -/
structure PipelineChoices where
  catDescrs : List String := []
  suppliers : List SupplierChoices := []
  products : List ProductChoices := []
  warehouses : List WarehouseChoices := []
  inventory : List InventoryChoices := []
  customers : List CustomerChoices := []
  orders : List OrderChoices := []
  reviews : List ReviewChoices := []
  tickets : List TicketChoices := []
deriving Inhabited

/-- Run one stage unless the environment makes it raise. -/
def tryStage (failAt : Option ℕ) (k : ℕ) (st : DBState) (f : DBState → DBState) :
    Except DBState DBState :=
  if failAt = some k then .error st else .ok (f st)

/-- A generator stage other than `generate_orders`: statements act on the
current view, then the generator's own `conn.commit()` runs. -/
def stage (f : DB → DB) (st : DBState) : DBState :=
  commitTx { st with current := f st.current }

/-- The `try` block of `main` (lines 339-348): the nine stages in call
order, each threading the id lists re-queried from the tables. -/
def runStages (pc : PipelineChoices) (failAt : Option ℕ) (st0 : DBState) :
    Except DBState DBState := do
  let st1 ← tryStage failAt 0 st0 (stage (fun db => generate_categories db pc.catDescrs))
  let category_ids := categoryIds st1.current
  let st2 ← tryStage failAt 1 st1 (stage (fun db => generate_suppliers db 30 pc.suppliers))
  let supplier_ids := supplierIds st2.current
  let st3 ← tryStage failAt 2 st2
    (stage (fun db => generate_products db category_ids supplier_ids 300 pc.products))
  let product_ids := productIds st3.current
  let st4 ← tryStage failAt 3 st3 (stage (fun db => generate_warehouses db 5 pc.warehouses))
  let warehouse_ids := warehouseIds st4.current
  let st5 ← tryStage failAt 4 st4
    (stage (fun db => generate_inventory db product_ids warehouse_ids pc.inventory))
  let st6 ← tryStage failAt 5 st5 (stage (fun db => generate_customers db 3000 pc.customers))
  let customer_ids := customerIds st6.current
  let st7 ← tryStage failAt 6 st6
    (fun st => generate_orders st customer_ids product_ids 5000 pc.orders)
  let st8 ← tryStage failAt 7 st7
    (stage (fun db => generate_reviews db customer_ids product_ids 1500 pc.reviews))
  let st9 ← tryStage failAt 8 st8 (stage (fun db => generate_tickets db customer_ids 500 pc.tickets))
  return st9

/-- `main`'s `try/except` (lines 339-357): on an exception the handler
prints the error and calls `conn.rollback()`; nothing is re-raised. -/
def mainRun (pc : PipelineChoices) (failAt : Option ℕ) : DBState :=
  match runStages pc failAt ⟨DB.empty, DB.empty⟩ with
  | .ok st => st
  | .error st => rollbackTx st

/-- What the process does, observably: either `sys.exit` with a code
before generation starts, or a normal return from `main` (exit status 0)
with the final connection state, whether an error was reported, and
whether the connection was closed. -/
inductive RunOutcome where
  | exited (code : ℕ)
  | completed (st : DBState) (reportedError : Bool) (connClosed : Bool)
deriving DecidableEq

/-- The whole script (lines 329-362): `connect_db` calls `sys.exit(1)` on
a connection failure (lines 26-29); otherwise `main`'s `try/except/finally`
runs, the `except` arm rolls back, the `finally` arm closes the
connection, and `main` returns normally. -/
def mainModel (connOk : Bool) (pc : PipelineChoices) (failAt : Option ℕ) : RunOutcome :=
  if !connOk then .exited 1
  else
    match runStages pc failAt ⟨DB.empty, DB.empty⟩ with
    | .ok st => .completed st false true
    | .error st => .completed (rollbackTx st) true true

/-- The process exit status of an outcome: a normal return from `main`
ends the script with status 0. -/
def exitCode : RunOutcome → ℕ
  | .exited c => c
  | .completed _ _ _ => 0

/-! ### Generic consequences of `round2` -/

theorem round2_ge (q : ℚ) : q - 1 / 200 ≤ round2 q := by
  have h := abs_le.mp (round2_sub_le q)
  linarith [h.1]

theorem round2_le (q : ℚ) : round2 q ≤ q + 1 / 200 := by
  have h := abs_le.mp (round2_sub_le q)
  linarith [h.2]

/-- Whole numbers of cents. -/
def IsCents (q : ℚ) : Prop := ∃ k : ℤ, q = k / 100

theorem round2_isCents (q : ℚ) : IsCents (round2 q) := ⟨round (q * 100), rfl⟩

theorem IsCents.zero : IsCents 0 := ⟨0, by norm_num⟩

theorem IsCents.add {p q : ℚ} (hp : IsCents p) (hq : IsCents q) : IsCents (p + q) := by
  obtain ⟨a, ha⟩ := hp; obtain ⟨b, hb⟩ := hq
  exact ⟨a + b, by rw [ha, hb]; push_cast; ring⟩

theorem IsCents.sub {p q : ℚ} (hp : IsCents p) (hq : IsCents q) : IsCents (p - q) := by
  obtain ⟨a, ha⟩ := hp; obtain ⟨b, hb⟩ := hq
  exact ⟨a - b, by rw [ha, hb]; push_cast; ring⟩

theorem IsCents.round2_eq {q : ℚ} (h : IsCents q) : round2 q = q := by
  obtain ⟨k, hk⟩ := h
  subst hk
  unfold round2
  rw [div_mul_cancel₀ (b := (100 : ℚ)) _ (by norm_num), round_intCast]

theorem IsCents.sum_map_lineTotal (items : List OrderItem)
    (h : ∀ it ∈ items, IsCents it.line_total) :
    IsCents ((items.map OrderItem.line_total).sum) := by
  induction items with
  | nil => exact IsCents.zero
  | cons it rest ih =>
      simp only [List.map_cons, List.sum_cons]
      exact (h it (List.mem_cons_self _ _)).add
        (ih (fun x hx => h x (List.mem_cons_of_mem _ hx)))

/-! ### C7: price strictly exceeds cost -/

theorem mkProduct_cost_ge (nid i : ℕ) (cids sids : List ℕ) (c : ProductChoices) :
    10 - 1 / 200 ≤ (mkProduct nid i cids sids c).cost := by
  show 10 - 1 / 200 ≤ round2 (uniform 10 300 c.costU)
  have h1 : (10 : ℚ) ≤ uniform 10 300 c.costU := uniform_le_left _ _ _ (by norm_num)
  have h2 := round2_ge (uniform 10 300 c.costU)
  linarith

theorem mkProduct_price_gt_cost (nid i : ℕ) (cids sids : List ℕ)
    (c : ProductChoices) :
    (mkProduct nid i cids sids c).cost < (mkProduct nid i cids sids c).price := by
  have hc := mkProduct_cost_ge nid i cids sids c
  show round2 (uniform 10 300 c.costU) <
    round2 (round2 (uniform 10 300 c.costU) * uniform (3/2) 3 c.markupU)
  set cost := round2 (uniform 10 300 c.costU) with hcost
  set m := uniform (3/2) 3 c.markupU with hm
  have hm1 : (3/2 : ℚ) ≤ m := uniform_le_left _ _ _ (by norm_num)
  have hge := round2_ge (cost * m)
  have hcost10 : 10 - 1 / 200 ≤ cost := hc
  have hmul : cost * (3/2) ≤ cost * m :=
    mul_le_mul_of_nonneg_left hm1 (by linarith)
  nlinarith

/-- C7.  For every generated product, the price strictly exceeds the cost:
the cost is a uniform draw from `[10, 300]` rounded to 2 decimals, the
price is the cost times a uniform markup from `[1.5, 3.0]` rounded to 2
decimals, and the rounding (which moves a value by at most half a cent)
can never bring the price down to or below the cost. -/
theorem products_price_gt_cost (db : DB) (cids sids : List ℕ) (count : ℕ)
    (cs : List ProductChoices) :
    ∀ p ∈ (generate_products db cids sids count cs).products,
      p ∈ db.products ∨ p.cost < p.price := by
  intro p hp
  unfold generate_products at hp
  simp only [List.mem_append, List.mem_map, List.mem_range] at hp
  rcases hp with hp | ⟨i, _, rfl⟩
  · exact Or.inl hp
  · exact Or.inr (mkProduct_price_gt_cost _ _ _ _ _)

/-- Witness for C7 at a concrete input. -/
theorem products_price_gt_cost_witness :
    mkProduct 0 0 [] [] default ∈ (generate_products DB.empty [] [] 1 []).products ∧
    (mkProduct 0 0 [] [] default ∈ DB.empty.products ∨
      (mkProduct 0 0 [] [] default).cost < (mkProduct 0 0 [] [] default).price) := by
  have hmem : mkProduct 0 0 [] [] default ∈ (generate_products DB.empty [] [] 1 []).products := by
    show mkProduct 0 0 [] [] default ∈
      [] ++ (List.range 1).map (fun i => mkProduct 0 i [] [] (([] : List ProductChoices).getD i default))
    simp [List.range_succ]
  exact ⟨hmem, products_price_gt_cost DB.empty [] [] 1 [] _ hmem⟩

/-! ### C8: support-ticket resolution dates -/

/-- The dating discipline of one support ticket: `resolved_date` is set
exactly for Resolved/Closed, and then lies strictly 1-10 days after
`created_date`. -/
def ticketDatesOK (t : Ticket) : Prop :=
  (t.resolved_date.isSome ↔ (t.status = "Resolved" ∨ t.status = "Closed")) ∧
  ((t.status = "Resolved" ∨ t.status = "Closed") →
    ∃ d : ℕ, 1 ≤ d ∧ d ≤ 10 ∧ t.resolved_date = some (t.created_date + d) ∧
      t.created_date < t.created_date + d) ∧
  ((t.status = "Open" ∨ t.status = "In Progress") → t.resolved_date = none)

theorem mkTicket_datesOK (c : TicketChoices) : ticketDatesOK (mkTicket c) := by
  unfold mkTicket ticketDatesOK
  set status := choice ticketStatuses "Open" c.statusSeed with hst
  by_cases h : status = "Resolved" ∨ status = "Closed"
  · simp only [if_pos h]
    refine ⟨by simp [h], fun _ => ?_, fun hop => ?_⟩
    · refine ⟨randint 1 10 c.resolvedSeed, randint_le_left _ _ _,
        randint_le_right _ _ _ (by norm_num), rfl, ?_⟩
      have h1 : 1 ≤ randint 1 10 c.resolvedSeed := randint_le_left _ _ _
      have : (1 : ℚ) ≤ (randint 1 10 c.resolvedSeed : ℕ) := by exact_mod_cast h1
      linarith
    · rcases hop with hop | hop <;> rcases h with h | h <;> simp [hop] at h
  · simp only [if_neg h]
    exact ⟨by simp [h], fun hrc => absurd hrc h, fun _ => by trivial⟩

/-- C8.  For every generated support ticket, `resolved_date` is set iff the
status is Resolved or Closed, in which case it is strictly 1-10 days after
`created_date`; for Open / In Progress it is unset. -/
theorem tickets_resolution_dates (db : DB) (customer_ids : List ℕ) (count : ℕ)
    (cs : List TicketChoices) :
    ∀ t ∈ (generate_tickets db customer_ids count cs).tickets,
      t ∈ db.tickets ∨ ticketDatesOK t := by
  intro t ht
  unfold generate_tickets at ht
  simp only [List.mem_append, List.mem_map, List.mem_range] at ht
  rcases ht with ht | ⟨i, _, rfl⟩
  · exact Or.inl ht
  · right
    have h := mkTicket_datesOK (cs.getD i default)
    unfold ticketDatesOK at h ⊢
    exact h

/-- Witness for C8 at a concrete input. -/
theorem tickets_resolution_dates_witness :
    mkTicket default ∈ (generate_tickets DB.empty [] 1 []).tickets ∧
    (mkTicket default ∈ DB.empty.tickets ∨ ticketDatesOK (mkTicket default)) := by
  have hmem : mkTicket default ∈ (generate_tickets DB.empty [] 1 []).tickets := by
    show mkTicket default ∈ [] ++ (List.range 1).map (fun i =>
      let c := ([] : List TicketChoices).getD i default
      { mkTicket c with customer_id := choice [] 0 c.custSeed })
    simp [List.range_succ, choice, mkTicket]
  exact ⟨hmem, tickets_resolution_dates DB.empty [] 1 [] _ hmem⟩

/-! ### The anatomy of one generated order

`genOrder` is re-expressed as: append one order row, append its items,
bump the serial counter, and overwrite the new row's total.  Each piece
gets a name so the invariant proofs can speak about it. -/

/-- The discount drawn for one order (line 214). -/
def orderDiscountOf (c : OrderChoices) : ℚ :=
  if clampUnit c.discRoll < 1/5 then round2 (uniform 0 30 c.discU) else 0

/-- The shipping cost drawn for one order (line 215). -/
def orderShippingOf (c : OrderChoices) : ℚ := round2 (uniform 5 20 c.shipU)

/-- The status drawn for one order (line 204). -/
def orderStatusOf (c : OrderChoices) : String :=
  choice orderStatuses "Delivered" c.statusSeed

/-- The shipping date of one order (lines 207-210). -/
def orderShipDateOf (c : OrderChoices) : Option ℚ :=
  if orderStatusOf c = "Shipped" ∨ orderStatusOf c = "Delivered" then
    some (c.orderDate + (randint 1 3 c.shipSeed : ℕ)) else none

/-- The delivery date of one order (lines 211-212). -/
def orderDelivDateOf (c : OrderChoices) : Option ℚ :=
  if orderStatusOf c = "Delivered" then
    some ((orderShipDateOf c).getD c.orderDate + (randint 2 7 c.delivSeed : ℕ)) else none

/-- The order row as first inserted (lines 218-228), placeholder total 0. -/
def orderRow (db : DB) (cu : List ℕ) (c : OrderChoices) : Order :=
  { order_id := db.nextOrderId
    customer_id := choice cu 0 c.custSeed
    order_date := c.orderDate
    status := orderStatusOf c
    total_amount := 0
    discount_amount := orderDiscountOf c
    shipping_cost := orderShippingOf c
    payment_method := choice paymentMethods "Credit Card" c.paySeed
    shipping_date := orderShipDateOf c
    delivery_date := orderDelivDateOf c }

/-- The products sampled for one order (lines 232-235). -/
def selectedOf (pids : List ℕ) (c : OrderChoices) : List ℕ :=
  sample pids (min (randint 1 4 c.numItemsSeed) pids.length) c.sampleSeeds

/-- The item rows of one order. -/
def orderItemsFor (db : DB) (pids : List ℕ) (c : OrderChoices) : List OrderItem :=
  mkOrderItems db.products db.nextOrderId (selectedOf pids c) c.items

/-- The final total written back to the order (line 254). -/
def orderTotalOf (db : DB) (pids : List ℕ) (c : OrderChoices) : ℚ :=
  round2 (((orderItemsFor db pids c).map OrderItem.line_total).sum +
    orderShippingOf c - orderDiscountOf c)

theorem genOrder_eq (db : DB) (cu pids : List ℕ) (c : OrderChoices) :
    genOrder db cu pids c =
      { db with
        orders := (db.orders ++ [orderRow db cu c]).map (fun o =>
          if o.order_id = db.nextOrderId then
            { o with total_amount := orderTotalOf db pids c } else o)
        order_items := db.order_items ++ orderItemsFor db pids c
        nextOrderId := db.nextOrderId + 1 } := rfl

theorem mkOrderItems_order_id (prods : List Product) (oid : ℕ) :
    ∀ (sel : List ℕ) (ics : List ItemChoices),
      ∀ it ∈ mkOrderItems prods oid sel ics, it.order_id = oid := by
  intro sel
  induction sel with
  | nil => intro ics it hit; cases hit
  | cons pid rest ih =>
      intro ics it hit
      rw [mkOrderItems, List.mem_cons] at hit
      rcases hit with rfl | hit
      · rfl
      · exact ih _ it hit

theorem mkOrderItems_map_product (prods : List Product) (oid : ℕ) :
    ∀ (sel : List ℕ) (ics : List ItemChoices),
      (mkOrderItems prods oid sel ics).map OrderItem.product_id = sel := by
  intro sel
  induction sel with
  | nil => intro ics; rfl
  | cons pid rest ih =>
      intro ics
      rw [mkOrderItems, List.map_cons, ih]
      rfl

theorem mkOrderItems_length (prods : List Product) (oid : ℕ)
    (sel : List ℕ) (ics : List ItemChoices) :
    (mkOrderItems prods oid sel ics).length = sel.length := by
  have h := congrArg List.length (mkOrderItems_map_product prods oid sel ics)
  simpa using h

theorem mkOrderItems_facts (prods : List Product) (oid : ℕ) :
    ∀ (sel : List ℕ) (ics : List ItemChoices),
      ∀ it ∈ mkOrderItems prods oid sel ics,
        it.line_total = round2 (it.unit_price * it.quantity * (1 - it.discount_percent / 100)) ∧
        it.unit_price = priceOf prods it.product_id ∧
        IsCents it.line_total := by
  intro sel
  induction sel with
  | nil => intro ics it hit; cases hit
  | cons pid rest ih =>
      intro ics it hit
      rw [mkOrderItems, List.mem_cons] at hit
      rcases hit with rfl | hit
      · exact ⟨rfl, rfl, round2_isCents _⟩
      · exact ih _ it hit

theorem selectedOf_length_le (pids : List ℕ) (c : OrderChoices) :
    (selectedOf pids c).length ≤ 4 := by
  unfold selectedOf
  rw [sample_length _ _ _ (min_le_right _ _)]
  exact le_trans (min_le_left _ _) (randint_le_right 1 4 _ (by norm_num))

theorem selectedOf_length_pos (pids : List ℕ) (c : OrderChoices) (h : pids ≠ []) :
    1 ≤ (selectedOf pids c).length := by
  unfold selectedOf
  rw [sample_length _ _ _ (min_le_right _ _)]
  have h1 : 1 ≤ randint 1 4 c.numItemsSeed := randint_le_left _ _ _
  have h2 : 1 ≤ pids.length := List.length_pos.mpr h
  omega

theorem selectedOf_nil (c : OrderChoices) : selectedOf [] c = [] := by
  unfold selectedOf
  simp [sample_zero]

/-! ### The per-order invariant maintained by the order loop -/

/-- The items of one order, read back from the database. -/
def orderItemsOf (db : DB) (oid : ℕ) : List OrderItem :=
  db.order_items.filter (fun it => it.order_id == oid)

/-- The dating discipline of one order (C2's conclusion). -/
def orderDatesOK (o : Order) : Prop :=
  ((o.status = "Shipped" ∨ o.status = "Delivered") →
    ∃ d : ℕ, 1 ≤ d ∧ d ≤ 3 ∧ o.shipping_date = some (o.order_date + d) ∧
      o.order_date < o.order_date + d) ∧
  (o.status = "Delivered" →
    ∃ s : ℚ, ∃ k : ℕ, 2 ≤ k ∧ k ≤ 7 ∧ o.shipping_date = some s ∧
      o.delivery_date = some (s + k) ∧ s < s + k) ∧
  (o.status = "Processing" → o.shipping_date = none ∧ o.delivery_date = none)

/-- What generation guarantees for every freshly inserted order row,
relative to the database state `db` it ends up in. -/
def OrderOK (pids : List ℕ) (db : DB) (o : Order) : Prop :=
  o.total_amount = round2 (((orderItemsOf db o.order_id).map OrderItem.line_total).sum +
    o.shipping_cost - o.discount_amount) ∧
  orderDatesOK o ∧
  IsCents o.discount_amount ∧ IsCents o.shipping_cost ∧
  (orderItemsOf db o.order_id).length ≤ 4 ∧
  (pids ≠ [] → 1 ≤ (orderItemsOf db o.order_id).length) ∧
  (pids.Nodup → ((orderItemsOf db o.order_id).map OrderItem.product_id).Nodup) ∧
  (∀ pid ∈ (orderItemsOf db o.order_id).map OrderItem.product_id, pid ∈ pids) ∧
  (pids = [] → orderItemsOf db o.order_id = [])

/-- What generation guarantees for every freshly inserted item row. -/
def ItemOK (db : DB) (it : OrderItem) : Prop :=
  it.line_total = round2 (it.unit_price * it.quantity * (1 - it.discount_percent / 100)) ∧
  it.unit_price = priceOf db.products it.product_id ∧
  IsCents it.line_total

/-- The loop invariant of `generate_orders`: serial ids stay below the
counter, and every row with id at least `n0` (the counter value when the
stage started) satisfies its generation guarantee. -/
def OrdersInv (n0 : ℕ) (cu pids : List ℕ) (db : DB) : Prop :=
  (∀ o ∈ db.orders, o.order_id < db.nextOrderId) ∧
  (∀ it ∈ db.order_items, it.order_id < db.nextOrderId) ∧
  (∀ o ∈ db.orders, n0 ≤ o.order_id →
    OrderOK pids db o ∧ (cu ≠ [] → o.customer_id ∈ cu)) ∧
  (∀ it ∈ db.order_items, n0 ≤ it.order_id → ItemOK db it)

theorem orderItemsOf_append_new (db : DB) (pids : List ℕ) (c : OrderChoices)
    (hbi : ∀ it ∈ db.order_items, it.order_id < db.nextOrderId) :
    (db.order_items ++ orderItemsFor db pids c).filter
      (fun it => it.order_id == db.nextOrderId) = orderItemsFor db pids c := by
  rw [List.filter_append]
  have hold : db.order_items.filter (fun it => it.order_id == db.nextOrderId) = [] :=
    List.filter_eq_nil_iff.mpr (fun it hit => by
      simp only [beq_iff_eq]
      exact Nat.ne_of_lt (hbi it hit))
  have hnew : (orderItemsFor db pids c).filter
      (fun it => it.order_id == db.nextOrderId) = orderItemsFor db pids c :=
    List.filter_eq_self.mpr (fun it hit => by
      simp [mkOrderItems_order_id _ _ _ _ it hit])
  rw [hold, hnew, List.nil_append]

theorem orderItemsOf_append_old (db : DB) (pids : List ℕ) (c : OrderChoices)
    (oid : ℕ) (hne : oid ≠ db.nextOrderId) :
    (db.order_items ++ orderItemsFor db pids c).filter
      (fun it => it.order_id == oid) = orderItemsOf db oid := by
  rw [List.filter_append]
  have hnew : (orderItemsFor db pids c).filter (fun it => it.order_id == oid) = [] :=
    List.filter_eq_nil_iff.mpr (fun it hit => by
      rw [mkOrderItems_order_id _ _ _ _ it hit]
      simp only [beq_iff_eq]
      exact fun h => hne h.symm)
  rw [hnew, List.append_nil]
  rfl

theorem genOrder_orders (db : DB) (cu pids : List ℕ) (c : OrderChoices)
    (hb : ∀ o ∈ db.orders, o.order_id < db.nextOrderId) :
    (genOrder db cu pids c).orders =
      db.orders ++ [{ orderRow db cu c with total_amount := orderTotalOf db pids c }] := by
  rw [genOrder_eq]
  show (db.orders ++ [orderRow db cu c]).map _ = _
  rw [List.map_append]
  congr 1
  · have : ∀ o ∈ db.orders,
        (if o.order_id = db.nextOrderId then
          { o with total_amount := orderTotalOf db pids c } else o) = id o := by
      intro o ho
      rw [if_neg (Nat.ne_of_lt (hb o ho))]
      rfl
    rw [List.map_congr_left this, List.map_id]
  · rw [List.map_singleton,
      if_pos (show (orderRow db cu c).order_id = db.nextOrderId from rfl)]

theorem orderDatesOK_of (o : Order) (c : OrderChoices)
    (hs : o.status = orderStatusOf c) (hod : o.order_date = c.orderDate)
    (hsd : o.shipping_date = orderShipDateOf c)
    (hdd : o.delivery_date = orderDelivDateOf c) : orderDatesOK o := by
  unfold orderDatesOK
  rw [hs, hod, hsd, hdd]
  unfold orderDelivDateOf orderShipDateOf
  refine ⟨?_, ?_, ?_⟩
  · intro h
    rw [if_pos h]
    refine ⟨randint 1 3 c.shipSeed, randint_le_left _ _ _,
      randint_le_right _ _ _ (by norm_num), rfl, ?_⟩
    have h1 : 1 ≤ randint 1 3 c.shipSeed := randint_le_left _ _ _
    have : (1:ℚ) ≤ (randint 1 3 c.shipSeed : ℕ) := by exact_mod_cast h1
    linarith
  · intro h
    have hcond : orderStatusOf c = "Shipped" ∨ orderStatusOf c = "Delivered" := Or.inr h
    rw [if_pos h, if_pos hcond]
    have h2 : 2 ≤ randint 2 7 c.delivSeed := randint_le_left _ _ _
    have h2q : (2:ℚ) ≤ (randint 2 7 c.delivSeed : ℕ) := by exact_mod_cast h2
    exact ⟨c.orderDate + (randint 1 3 c.shipSeed : ℕ), randint 2 7 c.delivSeed,
      randint_le_left _ _ _, randint_le_right _ _ _ (by norm_num), rfl,
      by rw [Option.getD_some], by linarith⟩
  · intro h
    rw [h]
    rw [if_neg (by simp), if_neg (by simp)]
    exact ⟨rfl, rfl⟩

theorem orderDiscountOf_isCents (c : OrderChoices) : IsCents (orderDiscountOf c) := by
  unfold orderDiscountOf
  split
  · exact round2_isCents _
  · exact IsCents.zero

theorem orderShippingOf_isCents (c : OrderChoices) : IsCents (orderShippingOf c) :=
  round2_isCents _

theorem newOrder_OK (db : DB) (cu pids : List ℕ) (c : OrderChoices)
    (hbi : ∀ it ∈ db.order_items, it.order_id < db.nextOrderId) :
    OrderOK pids (genOrder db cu pids c)
      { orderRow db cu c with total_amount := orderTotalOf db pids c } := by
  have hoid : ({ orderRow db cu c with
      total_amount := orderTotalOf db pids c } : Order).order_id = db.nextOrderId := rfl
  have hitems : orderItemsOf (genOrder db cu pids c) db.nextOrderId =
      orderItemsFor db pids c := by
    show ((genOrder db cu pids c).order_items).filter _ = _
    rw [genOrder_eq]
    exact orderItemsOf_append_new db pids c hbi
  unfold OrderOK
  rw [hoid, hitems]
  refine ⟨?_, ?_, orderDiscountOf_isCents c, orderShippingOf_isCents c, ?_, ?_, ?_, ?_, ?_⟩
  · show orderTotalOf db pids c = _
    rfl
  · exact orderDatesOK_of _ c rfl rfl rfl rfl
  · show (mkOrderItems db.products db.nextOrderId (selectedOf pids c) c.items).length ≤ 4
    rw [mkOrderItems_length]
    exact selectedOf_length_le pids c
  · intro hne
    show 1 ≤ (mkOrderItems db.products db.nextOrderId (selectedOf pids c) c.items).length
    rw [mkOrderItems_length]
    exact selectedOf_length_pos pids c hne
  · intro hnd
    show ((mkOrderItems db.products db.nextOrderId (selectedOf pids c) c.items).map
      OrderItem.product_id).Nodup
    rw [mkOrderItems_map_product]
    exact sample_nodup _ _ _ hnd
  · intro pid hpid
    rw [show orderItemsFor db pids c =
      mkOrderItems db.products db.nextOrderId (selectedOf pids c) c.items from rfl,
      mkOrderItems_map_product] at hpid
    exact sample_subset _ _ _ _ hpid
  · intro hnil
    subst hnil
    show mkOrderItems db.products db.nextOrderId (selectedOf [] c) c.items = []
    rw [selectedOf_nil]
    rfl

theorem OrderOK_step (db : DB) (cu pids : List ℕ) (c : OrderChoices) (o : Order)
    (h : OrderOK pids db o) (ho : o.order_id < db.nextOrderId) :
    OrderOK pids (genOrder db cu pids c) o := by
  have hitems : orderItemsOf (genOrder db cu pids c) o.order_id =
      orderItemsOf db o.order_id := by
    show ((genOrder db cu pids c).order_items).filter _ = _
    rw [genOrder_eq]
    exact orderItemsOf_append_old db pids c o.order_id (Nat.ne_of_lt ho)
  unfold OrderOK at h ⊢
  rw [hitems]
  exact h

theorem ItemOK_step (db : DB) (cu pids : List ℕ) (c : OrderChoices) (it : OrderItem)
    (h : ItemOK db it) : ItemOK (genOrder db cu pids c) it := by
  unfold ItemOK at h ⊢
  have : (genOrder db cu pids c).products = db.products := rfl
  rw [this]
  exact h

theorem OrdersInv_step (n0 : ℕ) (cu pids : List ℕ) (db : DB) (c : OrderChoices)
    (h : OrdersInv n0 cu pids db) : OrdersInv n0 cu pids (genOrder db cu pids c) := by
  obtain ⟨hb, hbi, hord, hitm⟩ := h
  have horders := genOrder_orders db cu pids c hb
  have hnext : (genOrder db cu pids c).nextOrderId = db.nextOrderId + 1 := rfl
  have hoitems : (genOrder db cu pids c).order_items =
      db.order_items ++ orderItemsFor db pids c := by rw [genOrder_eq]
  refine ⟨?_, ?_, ?_, ?_⟩
  · intro o ho
    rw [horders, List.mem_append] at ho
    rw [hnext]
    rcases ho with ho | ho
    · exact Nat.lt_succ_of_lt (hb o ho)
    · rw [List.mem_singleton] at ho
      subst ho
      exact Nat.lt_succ_self _
  · intro it hit
    rw [hoitems, List.mem_append] at hit
    rw [hnext]
    rcases hit with hit | hit
    · exact Nat.lt_succ_of_lt (hbi it hit)
    · rw [mkOrderItems_order_id _ _ _ _ it hit]
      exact Nat.lt_succ_self _
  · intro o ho hn0
    rw [horders, List.mem_append] at ho
    rcases ho with ho | ho
    · obtain ⟨hOK, hcust⟩ := hord o ho hn0
      exact ⟨OrderOK_step db cu pids c o hOK (hb o ho), hcust⟩
    · rw [List.mem_singleton] at ho
      subst ho
      refine ⟨newOrder_OK db cu pids c hbi, fun hcu => ?_⟩
      exact choice_mem cu 0 c.custSeed hcu
  · intro it hit hn0
    rw [hoitems, List.mem_append] at hit
    rcases hit with hit | hit
    · exact ItemOK_step db cu pids c it (hitm it hit hn0)
    · obtain ⟨h1, h2, h3⟩ := mkOrderItems_facts db.products db.nextOrderId _ _ it hit
      exact ⟨h1, h2, h3⟩

theorem OrdersInv_fold (n0 : ℕ) (cu pids : List ℕ) (l : List OrderChoices) :
    ∀ db : DB, OrdersInv n0 cu pids db →
      OrdersInv n0 cu pids (l.foldl (fun d c => genOrder d cu pids c) db) := by
  induction l with
  | nil => intro db h; exact h
  | cons c rest ih =>
      intro db h
      exact ih _ (OrdersInv_step n0 cu pids db c h)

theorem genOrdersDB_inv (db : DB) (cu pids : List ℕ) (count : ℕ)
    (cs : List OrderChoices)
    (hb : ∀ o ∈ db.orders, o.order_id < db.nextOrderId)
    (hbi : ∀ it ∈ db.order_items, it.order_id < db.nextOrderId) :
    OrdersInv db.nextOrderId cu pids (genOrdersDB db cu pids count cs) := by
  have hinit : OrdersInv db.nextOrderId cu pids db := by
    refine ⟨hb, hbi, ?_, ?_⟩
    · intro o ho hn0
      exact absurd hn0 (Nat.not_le_of_lt (hb o ho))
    · intro it hit hn0
      exact absurd hn0 (Nat.not_le_of_lt (hbi it hit))
  exact OrdersInv_fold db.nextOrderId cu pids _ db hinit

theorem genOrder_orders_length (db : DB) (cu pids : List ℕ) (c : OrderChoices) :
    (genOrder db cu pids c).orders.length = db.orders.length + 1 := by
  rw [genOrder_eq]
  show ((db.orders ++ [orderRow db cu c]).map _).length = _
  rw [List.length_map, List.length_append]
  rfl

theorem genOrdersDB_orders_length (db : DB) (cu pids : List ℕ) (count : ℕ)
    (cs : List OrderChoices) :
    (genOrdersDB db cu pids count cs).orders.length = db.orders.length + count := by
  unfold genOrdersDB
  have hgen : ∀ (l : List OrderChoices) (d : DB),
      (l.foldl (fun d c => genOrder d cu pids c) d).orders.length =
        d.orders.length + l.length := by
    intro l
    induction l with
    | nil => intro d; rfl
    | cons c rest ih =>
        intro d
        rw [List.foldl_cons, ih, genOrder_orders_length, List.length_cons]
        omega
  rw [hgen, List.length_map, List.length_range]

/-! ### C1, C2, C6, C9: the order-level claims -/

/-- C1.  For every generated order, the stored `total_amount` equals
`round2` of (sum of its items' line totals + shipping cost - discount),
each line total is `round2 (unit_price * quantity * (1 - discount_percent/100))`,
and each unit price is the referenced product's price as read from the
products table (which the order stage never modifies). -/
theorem orders_total_consistent (db : DB) (cu pids : List ℕ) (count : ℕ)
    (cs : List OrderChoices)
    (hb : ∀ o ∈ db.orders, o.order_id < db.nextOrderId)
    (hbi : ∀ it ∈ db.order_items, it.order_id < db.nextOrderId) :
    ∀ o ∈ (genOrdersDB db cu pids count cs).orders, db.nextOrderId ≤ o.order_id →
      o.total_amount = round2
        (((orderItemsOf (genOrdersDB db cu pids count cs) o.order_id).map
          OrderItem.line_total).sum + o.shipping_cost - o.discount_amount) ∧
      ∀ it ∈ orderItemsOf (genOrdersDB db cu pids count cs) o.order_id,
        it.line_total = round2 (it.unit_price * it.quantity *
          (1 - it.discount_percent / 100)) ∧
        it.unit_price = priceOf (genOrdersDB db cu pids count cs).products it.product_id := by
  intro o ho hn0
  obtain ⟨_, _, hord, hitm⟩ := genOrdersDB_inv db cu pids count cs hb hbi
  obtain ⟨hOK, _⟩ := hord o ho hn0
  refine ⟨hOK.1, ?_⟩
  intro it hit
  have hid : it.order_id = o.order_id := by
    have := List.of_mem_filter hit
    simpa using this
  have hmem : it ∈ (genOrdersDB db cu pids count cs).order_items :=
    List.mem_of_mem_filter hit
  have hi := hitm it hmem (by rw [hid]; exact hn0)
  exact ⟨hi.1, hi.2.1⟩

/-- The single order produced by one loop iteration over an empty
database with an empty product pool and all-default entropy. -/
def sampleOrderEmptyPool : Order :=
  { orderRow DB.empty [] default with total_amount := orderTotalOf DB.empty [] default }

/-- The single order produced by one loop iteration over an empty
database with product pool `[5]` and all-default entropy. -/
def sampleOrderSmallPool : Order :=
  { orderRow DB.empty [] default with total_amount := orderTotalOf DB.empty [5] default }

theorem sampleOrderEmptyPool_mem :
    sampleOrderEmptyPool ∈ (genOrdersDB DB.empty [] [] 1 []).orders :=
  List.mem_singleton.mpr rfl

theorem sampleOrderSmallPool_mem :
    sampleOrderSmallPool ∈ (genOrdersDB DB.empty [] [5] 1 []).orders :=
  List.mem_singleton.mpr rfl

/-- Witness for C1 at a concrete input. -/
theorem orders_total_consistent_witness :
    sampleOrderEmptyPool.total_amount = round2
      (((orderItemsOf (genOrdersDB DB.empty [] [] 1 []) sampleOrderEmptyPool.order_id).map
        OrderItem.line_total).sum + sampleOrderEmptyPool.shipping_cost -
        sampleOrderEmptyPool.discount_amount) :=
  (orders_total_consistent DB.empty [] [] 1 []
    (fun o ho => absurd ho (List.not_mem_nil o))
    (fun it hit => absurd hit (List.not_mem_nil it))
    sampleOrderEmptyPool sampleOrderEmptyPool_mem (Nat.le_refl 0)).1

/-- C2.  For every generated order: Shipped/Delivered orders carry a
shipping date strictly 1-3 days after the order date; Delivered orders
additionally carry a delivery date strictly 2-7 days after the shipping
date; Processing orders carry neither date. -/
theorem orders_date_discipline (db : DB) (cu pids : List ℕ) (count : ℕ)
    (cs : List OrderChoices)
    (hb : ∀ o ∈ db.orders, o.order_id < db.nextOrderId)
    (hbi : ∀ it ∈ db.order_items, it.order_id < db.nextOrderId) :
    ∀ o ∈ (genOrdersDB db cu pids count cs).orders, db.nextOrderId ≤ o.order_id →
      orderDatesOK o := by
  intro o ho hn0
  obtain ⟨_, _, hord, _⟩ := genOrdersDB_inv db cu pids count cs hb hbi
  exact (hord o ho hn0).1.2.1

/-- Witness for C2 at a concrete input. -/
theorem orders_date_discipline_witness : orderDatesOK sampleOrderEmptyPool :=
  orders_date_discipline DB.empty [] [] 1 []
    (fun o ho => absurd ho (List.not_mem_nil o))
    (fun it hit => absurd hit (List.not_mem_nil it))
    sampleOrderEmptyPool sampleOrderEmptyPool_mem (Nat.le_refl 0)

/-- C6.  Over a nonempty, duplicate-free product pool, every generated
order has between 1 and 4 items, referencing pairwise distinct products
drawn from the pool; in particular no order ever exceeds 4 items or
repeats a product. -/
theorem orders_items_distinct (db : DB) (cu pids : List ℕ) (count : ℕ)
    (cs : List OrderChoices)
    (hb : ∀ o ∈ db.orders, o.order_id < db.nextOrderId)
    (hbi : ∀ it ∈ db.order_items, it.order_id < db.nextOrderId)
    (hne : pids ≠ []) (hnd : pids.Nodup) :
    ∀ o ∈ (genOrdersDB db cu pids count cs).orders, db.nextOrderId ≤ o.order_id →
      1 ≤ (orderItemsOf (genOrdersDB db cu pids count cs) o.order_id).length ∧
      (orderItemsOf (genOrdersDB db cu pids count cs) o.order_id).length ≤ 4 ∧
      ((orderItemsOf (genOrdersDB db cu pids count cs) o.order_id).map
        OrderItem.product_id).Nodup ∧
      ∀ pid ∈ (orderItemsOf (genOrdersDB db cu pids count cs) o.order_id).map
        OrderItem.product_id, pid ∈ pids := by
  intro o ho hn0
  obtain ⟨_, _, hord, _⟩ := genOrdersDB_inv db cu pids count cs hb hbi
  obtain ⟨hOK, _⟩ := hord o ho hn0
  exact ⟨hOK.2.2.2.2.2.1 hne, hOK.2.2.2.2.1, hOK.2.2.2.2.2.2.1 hnd, hOK.2.2.2.2.2.2.2.1⟩

/-- Witness for C6 at a concrete input. -/
theorem orders_items_distinct_witness :
    1 ≤ (orderItemsOf (genOrdersDB DB.empty [] [5] 1 [])
      sampleOrderSmallPool.order_id).length ∧
    (orderItemsOf (genOrdersDB DB.empty [] [5] 1 [])
      sampleOrderSmallPool.order_id).length ≤ 4 ∧
    ((orderItemsOf (genOrdersDB DB.empty [] [5] 1 [])
      sampleOrderSmallPool.order_id).map OrderItem.product_id).Nodup ∧
    ∀ pid ∈ (orderItemsOf (genOrdersDB DB.empty [] [5] 1 [])
      sampleOrderSmallPool.order_id).map OrderItem.product_id, pid ∈ ([5] : List ℕ) :=
  orders_items_distinct DB.empty [] [5] 1 []
    (fun o ho => absurd ho (List.not_mem_nil o))
    (fun it hit => absurd hit (List.not_mem_nil it))
    (by decide) (by decide)
    sampleOrderSmallPool sampleOrderSmallPool_mem (Nat.le_refl 0)

/-- C9.  With an empty product pool every order is still inserted, with no
items and `total_amount = round2 (shipping_cost - discount_amount)`; and in
general a generated order's total is negative exactly when the discount
exceeds subtotal plus shipping - there is no clamping at zero. -/
theorem orders_empty_pool_negative_total (db : DB) (cu pids : List ℕ) (count : ℕ)
    (cs : List OrderChoices)
    (hb : ∀ o ∈ db.orders, o.order_id < db.nextOrderId)
    (hbi : ∀ it ∈ db.order_items, it.order_id < db.nextOrderId) :
    (pids = [] →
      (genOrdersDB db cu pids count cs).orders.length = db.orders.length + count ∧
      ∀ o ∈ (genOrdersDB db cu pids count cs).orders, db.nextOrderId ≤ o.order_id →
        orderItemsOf (genOrdersDB db cu pids count cs) o.order_id = [] ∧
        o.total_amount = round2 (o.shipping_cost - o.discount_amount)) ∧
    (∀ o ∈ (genOrdersDB db cu pids count cs).orders, db.nextOrderId ≤ o.order_id →
      ((orderItemsOf (genOrdersDB db cu pids count cs) o.order_id).map
        OrderItem.line_total).sum + o.shipping_cost < o.discount_amount →
      o.total_amount < 0) := by
  obtain ⟨_, _, hord, hitm⟩ := genOrdersDB_inv db cu pids count cs hb hbi
  constructor
  · intro hnil
    refine ⟨genOrdersDB_orders_length db cu pids count cs, ?_⟩
    intro o ho hn0
    obtain ⟨hOK, _⟩ := hord o ho hn0
    have hempty := hOK.2.2.2.2.2.2.2.2 hnil
    refine ⟨hempty, ?_⟩
    have htot := hOK.1
    rw [hempty] at htot
    simpa using htot
  · intro o ho hn0 hlt
    obtain ⟨hOK, _⟩ := hord o ho hn0
    have hS : IsCents (((orderItemsOf (genOrdersDB db cu pids count cs)
        o.order_id).map OrderItem.line_total).sum) := by
      apply IsCents.sum_map_lineTotal
      intro it hit
      have hid : it.order_id = o.order_id := by
        have := List.of_mem_filter hit
        simpa using this
      have hmem : it ∈ (genOrdersDB db cu pids count cs).order_items :=
        List.mem_of_mem_filter hit
      exact (hitm it hmem (by rw [hid]; exact hn0)).2.2
    have hcents : IsCents (((orderItemsOf (genOrdersDB db cu pids count cs)
        o.order_id).map OrderItem.line_total).sum + o.shipping_cost -
        o.discount_amount) := (hS.add hOK.2.2.2.1).sub hOK.2.2.1
    have htot := hOK.1
    rw [hcents.round2_eq] at htot
    rw [htot]
    linarith

/-- Witness for C9 at a concrete input. -/
theorem orders_empty_pool_negative_total_witness :
    (genOrdersDB DB.empty [] [] 1 []).orders.length = DB.empty.orders.length + 1 ∧
    orderItemsOf (genOrdersDB DB.empty [] [] 1 []) sampleOrderEmptyPool.order_id = [] ∧
    sampleOrderEmptyPool.total_amount = round2
      (sampleOrderEmptyPool.shipping_cost - sampleOrderEmptyPool.discount_amount) := by
  have h := (orders_empty_pool_negative_total DB.empty [] [] 1 []
    (fun o ho => absurd ho (List.not_mem_nil o))
    (fun it hit => absurd hit (List.not_mem_nil it))).1 rfl
  exact ⟨h.1, (h.2 sampleOrderEmptyPool sampleOrderEmptyPool_mem (Nat.le_refl 0)).1,
    (h.2 sampleOrderEmptyPool sampleOrderEmptyPool_mem (Nat.le_refl 0)).2⟩

/-! ### C4: referential integrity of a full successful run -/

/-- The database a fully successful run leaves behind: the nine stages of
`main` composed, with each id list re-queried where the script re-queries
it. -/
def finalDB (pc : PipelineChoices) : DB :=
  let db1 := generate_categories DB.empty pc.catDescrs
  let db2 := generate_suppliers db1 30 pc.suppliers
  let db3 := generate_products db2 (categoryIds db1) (supplierIds db2) 300 pc.products
  let db4 := generate_warehouses db3 5 pc.warehouses
  let db5 := generate_inventory db4 (productIds db3) (warehouseIds db4) pc.inventory
  let db6 := generate_customers db5 3000 pc.customers
  let db7 := genOrdersDB db6 (customerIds db6) (productIds db3) 5000 pc.orders
  let db8 := generate_reviews db7 (customerIds db6) (productIds db3) 1500 pc.reviews
  generate_tickets db8 (customerIds db6) 500 pc.tickets

theorem generate_orders_eq (st : DBState) (cu pids : List ℕ) (count : ℕ)
    (cs : List OrderChoices) :
    generate_orders st cu pids count cs =
      ⟨genOrdersDB st.current cu pids count cs,
       genOrdersDB st.current cu pids count cs⟩ := by
  unfold generate_orders genOrdersDB
  rw [List.foldl_map]
  have key : ∀ (l : List ℕ) (s : DBState),
      ((l.foldl (fun s i =>
        let s1 : DBState :=
          { s with current := genOrder s.current cu pids (cs.getD i default) }
        if (i + 1) % 500 = 0 then commitTx s1 else s1) s)).current =
      l.foldl (fun db i => genOrder db cu pids (cs.getD i default)) s.current := by
    intro l
    induction l with
    | nil => intro s; rfl
    | cons i rest ih =>
        intro s
        rw [List.foldl_cons, List.foldl_cons, ih]
        congr 1
        split <;> rfl
  have hc : ∀ s : DBState, commitTx s = ⟨s.current, s.current⟩ := fun _ => rfl
  rw [hc ((List.range count).foldl _ st), key]

/-- The connection state a fully successful run ends in, mirroring
`runStages` with no failure. -/
def finalState (pc : PipelineChoices) : DBState :=
  let st1 := stage (fun db => generate_categories db pc.catDescrs) ⟨DB.empty, DB.empty⟩
  let category_ids := categoryIds st1.current
  let st2 := stage (fun db => generate_suppliers db 30 pc.suppliers) st1
  let supplier_ids := supplierIds st2.current
  let st3 := stage (fun db => generate_products db category_ids supplier_ids 300 pc.products) st2
  let product_ids := productIds st3.current
  let st4 := stage (fun db => generate_warehouses db 5 pc.warehouses) st3
  let warehouse_ids := warehouseIds st4.current
  let st5 := stage (fun db => generate_inventory db product_ids warehouse_ids pc.inventory) st4
  let st6 := stage (fun db => generate_customers db 3000 pc.customers) st5
  let customer_ids := customerIds st6.current
  let st7 := generate_orders st6 customer_ids product_ids 5000 pc.orders
  let st8 := stage (fun db => generate_reviews db customer_ids product_ids 1500 pc.reviews) st7
  stage (fun db => generate_tickets db customer_ids 500 pc.tickets) st8

theorem runStages_none (pc : PipelineChoices) :
    runStages pc none ⟨DB.empty, DB.empty⟩ = .ok (finalState pc) := rfl

theorem mainRun_none (pc : PipelineChoices) :
    mainRun pc none = finalState pc := by
  unfold mainRun
  rw [runStages_none]

theorem finalState_current (pc : PipelineChoices) :
    (finalState pc).current = finalDB pc := by
  simp only [finalState, finalDB, stage, commitTx, generate_orders_eq]

theorem finalState_committed (pc : PipelineChoices) :
    (finalState pc).committed = (finalState pc).current := rfl

/-! ### C10 and C3: top-level error handling and the transaction model -/

theorem exceptBind_ok {α β γ : Type} {x : Except α β} {f : β → Except α γ} {r : γ}
    (h : (x >>= f) = .ok r) : ∃ b, x = .ok b ∧ f b = .ok r := by
  cases x with
  | error e => exact absurd h (by simp [Bind.bind, Except.bind])
  | ok b => exact ⟨b, rfl, by simpa [Bind.bind, Except.bind] using h⟩

theorem tryStage_ok {fa : Option ℕ} {k : ℕ} {st : DBState} {f : DBState → DBState}
    {r : DBState} (h : tryStage fa k st f = .ok r) : r = f st := by
  unfold tryStage at h
  split at h
  · cases h
  · cases h; rfl

/-- A successful run ends right after a `conn.commit()`: the final
connection state has no uncommitted statements. -/
theorem runStages_ok_closed (pc : PipelineChoices) (failAt : Option ℕ)
    (st : DBState) (r : DBState) (h : runStages pc failAt st = .ok r) :
    r.current = r.committed := by
  unfold runStages at h
  obtain ⟨s1, h1, h⟩ := exceptBind_ok h
  obtain ⟨s2, h2, h⟩ := exceptBind_ok h
  obtain ⟨s3, h3, h⟩ := exceptBind_ok h
  obtain ⟨s4, h4, h⟩ := exceptBind_ok h
  obtain ⟨s5, h5, h⟩ := exceptBind_ok h
  obtain ⟨s6, h6, h⟩ := exceptBind_ok h
  obtain ⟨s7, h7, h⟩ := exceptBind_ok h
  obtain ⟨s8, h8, h⟩ := exceptBind_ok h
  obtain ⟨s9, h9, h⟩ := exceptBind_ok h
  have hr : s9 = r := by simpa [pure, Except.pure] using h
  subst hr
  rw [tryStage_ok h9]
  rfl

/-- C10.  Every exception raised during generation is caught in `main`
and never re-raised: with a working connection the process always ends in
a normal return (exit status 0), the connection is closed, and on failure
the transaction is rolled back; only a failed connection exits non-zero,
via `sys.exit(1)` in `connect_db` before any generation. -/
theorem main_exit_behavior (pc : PipelineChoices) (failPoint : Option ℕ) :
    (mainModel false pc failPoint = .exited 1) ∧
    (∃ st r, mainModel true pc failPoint = .completed st r true) ∧
    exitCode (mainModel true pc failPoint) = 0 ∧
    (∀ st, runStages pc failPoint ⟨DB.empty, DB.empty⟩ = .error st →
      mainModel true pc failPoint = .completed (rollbackTx st) true true) := by
  refine ⟨rfl, ?_, ?_, ?_⟩
  · unfold mainModel
    cases h : runStages pc failPoint ⟨DB.empty, DB.empty⟩ with
    | ok st => exact ⟨st, false, by simp⟩
    | error st => exact ⟨rollbackTx st, true, by simp⟩
  · unfold mainModel exitCode
    cases h : runStages pc failPoint ⟨DB.empty, DB.empty⟩ <;> simp
  · intro st h
    unfold mainModel
    rw [h]
    rfl

/-- Witness for C10 at a concrete input: a run whose suppliers stage
raises still exits with status 0. -/
theorem main_exit_behavior_witness :
    exitCode (mainModel true default (some 1)) = 0 ∧
    mainModel false default (some 1) = .exited 1 :=
  ⟨(main_exit_behavior default (some 1)).2.2.1, (main_exit_behavior default (some 1)).1⟩

/-- Distinguishes a failed `runStages` result. -/
def stagesFailed {α β : Type} : Except α β → Bool
  | .error _ => true
  | .ok _ => false

/-- Counterexample to C3 as stated: inject a failure when the suppliers
stage (stage 1) issues its first statement.  The categories stage has
already committed its 10 rows, so after `main`'s rollback the database
still holds 10 category rows from the failed run. -/
theorem rollback_partial_state_counterexample :
    stagesFailed (runStages default (some 1) ⟨DB.empty, DB.empty⟩) = true ∧
    (mainRun default (some 1)).committed.categories.length = 10 := by
  constructor <;> rfl

/-- C3 as amended.  A failure during generation is caught once at the top
level and the in-flight (uncommitted) transaction is rolled back, so the
final connection state never holds uncommitted changes; but rows already
committed by earlier completed stages (or completed order batches) stay
in the database. -/
theorem rollback_discards_uncommitted (pc : PipelineChoices) (failPoint : Option ℕ) :
    (mainRun pc failPoint).current = (mainRun pc failPoint).committed := by
  unfold mainRun
  cases h : runStages pc failPoint ⟨DB.empty, DB.empty⟩ with
  | ok st => exact runStages_ok_closed pc failPoint _ st h
  | error st => rfl

/-! ### C5: inventory rows per product -/

theorem invRowsFor_product_id (wids : List ℕ) (pid : ℕ) (c : InventoryChoices) :
    ∀ r ∈ invRowsFor wids pid c, r.product_id = pid := by
  intro r hr
  unfold invRowsFor at hr
  simp only [List.mem_map] at hr
  obtain ⟨p, _, rfl⟩ := hr
  rfl

theorem genInvRows_product_mem (wids : List ℕ) :
    ∀ (pids : List ℕ) (cs : List InventoryChoices),
      ∀ r ∈ genInvRows wids pids cs, r.product_id ∈ pids := by
  intro pids
  induction pids with
  | nil => intro cs r hr; cases hr
  | cons p rest ih =>
      intro cs r hr
      unfold genInvRows at hr
      rw [List.mem_append] at hr
      rcases hr with hr | hr
      · rw [invRowsFor_product_id _ _ _ r hr]; exact List.mem_cons_self _ _
      · exact List.mem_cons_of_mem _ (ih _ r hr)

theorem invRowsFor_warehouses (wids : List ℕ) (pid : ℕ) (c : InventoryChoices) :
    (invRowsFor wids pid c).map InventoryRow.warehouse_id =
      sample wids (min (randint 1 2 c.numWhSeed) wids.length) c.whSeeds := by
  unfold invRowsFor
  rw [List.map_map]
  have : (InventoryRow.warehouse_id ∘ fun p : ℕ × ℕ =>
      ({ product_id := pid, warehouse_id := p.2,
         stock_quantity := randint 0 500 (c.rows.getD p.1 default).stockSeed,
         reorder_level := randint 10 50 (c.rows.getD p.1 default).reorderSeed,
         last_restocked_date := (c.rows.getD p.1 default).restocked } : InventoryRow)) =
      Prod.snd := rfl
  rw [this, List.enum_map_snd]

theorem invRowsFor_length (wids : List ℕ) (pid : ℕ) (c : InventoryChoices)
    (hw : wids ≠ []) :
    1 ≤ (invRowsFor wids pid c).length ∧ (invRowsFor wids pid c).length ≤ 2 := by
  have hmap := invRowsFor_warehouses wids pid c
  have hlen : (invRowsFor wids pid c).length =
      (sample wids (min (randint 1 2 c.numWhSeed) wids.length) c.whSeeds).length := by
    rw [← hmap, List.length_map]
  have hwlen : 1 ≤ wids.length := List.length_pos.mpr hw
  have h1 : 1 ≤ randint 1 2 c.numWhSeed := randint_le_left _ _ _
  have h2 : randint 1 2 c.numWhSeed ≤ 2 := randint_le_right _ _ _ (by norm_num)
  have hs := sample_length (min (randint 1 2 c.numWhSeed) wids.length) wids c.whSeeds
    (min_le_right _ _)
  rw [hlen, hs]
  omega

/-- The inventory rows a single product receives: a helper predicate for
C5's conclusion. -/
def invOKFor (wids : List ℕ) (rows : List InventoryRow) : Prop :=
  1 ≤ rows.length ∧ rows.length ≤ 2 ∧
  (rows.map InventoryRow.warehouse_id).Nodup ∧
  ∀ wid ∈ rows.map InventoryRow.warehouse_id, wid ∈ wids

theorem invRowsFor_ok (wids : List ℕ) (pid : ℕ) (c : InventoryChoices)
    (hw : wids ≠ []) (hwnd : wids.Nodup) : invOKFor wids (invRowsFor wids pid c) := by
  obtain ⟨h1, h2⟩ := invRowsFor_length wids pid c hw
  refine ⟨h1, h2, ?_, ?_⟩
  · rw [invRowsFor_warehouses]
    exact sample_nodup _ _ _ hwnd
  · intro wid hwid
    rw [invRowsFor_warehouses] at hwid
    exact sample_subset _ _ _ _ hwid

theorem genInvRows_filter (wids : List ℕ) :
    ∀ (pids : List ℕ) (cs : List InventoryChoices), pids.Nodup →
      ∀ pid ∈ pids, ∃ c : InventoryChoices,
        (genInvRows wids pids cs).filter (fun r => r.product_id == pid) =
          invRowsFor wids pid c := by
  intro pids
  induction pids with
  | nil => intro cs _ pid hpid; cases hpid
  | cons p rest ih =>
      intro cs hnd pid hpid
      rw [List.nodup_cons] at hnd
      unfold genInvRows
      rw [List.filter_append]
      rcases List.mem_cons.mp hpid with rfl | hpid'
      · refine ⟨cs.headD default, ?_⟩
        have hself : (invRowsFor wids pid (cs.headD default)).filter
            (fun r => r.product_id == pid) = invRowsFor wids pid (cs.headD default) :=
          List.filter_eq_self.mpr (fun r hr => by
            simp [invRowsFor_product_id wids pid _ r hr])
        have hrest : (genInvRows wids rest cs.tail).filter
            (fun r => r.product_id == pid) = [] :=
          List.filter_eq_nil_iff.mpr (fun r hr => by
            have := genInvRows_product_mem wids rest cs.tail r hr
            simp only [beq_iff_eq]
            intro heq
            exact hnd.1 (heq ▸ this))
        rw [hself, hrest, List.append_nil]
      · obtain ⟨c, hc⟩ := ih cs.tail hnd.2 pid hpid'
        refine ⟨c, ?_⟩
        have hhead : (invRowsFor wids p (cs.headD default)).filter
            (fun r => r.product_id == pid) = [] :=
          List.filter_eq_nil_iff.mpr (fun r hr => by
            have := invRowsFor_product_id wids p _ r hr
            simp only [beq_iff_eq]
            intro heq
            exact hnd.1 (this ▸ heq ▸ hpid'))
        rw [hhead, List.nil_append, hc]

/-- C5.  With a nonempty, duplicate-free warehouse id list and
duplicate-free product ids, every product passed to `generate_inventory`
(over an empty inventory table) ends up with 1 or 2 inventory rows, whose
warehouses are pairwise distinct members of the warehouse id list; no
product gets more than 2 rows. -/
theorem inventory_rows_per_product (db : DB) (pids wids : List ℕ)
    (cs : List InventoryChoices) (hdb : db.inventory = []) (hw : wids ≠ [])
    (hwnd : wids.Nodup) (hpnd : pids.Nodup) :
    ∀ pid ∈ pids,
      invOKFor wids ((generate_inventory db pids wids cs).inventory.filter
        (fun r => r.product_id == pid)) := by
  intro pid hpid
  unfold generate_inventory
  simp only [hdb, List.nil_append]
  obtain ⟨c, hc⟩ := genInvRows_filter wids pids cs hpnd pid hpid
  rw [hc]
  exact invRowsFor_ok wids pid c hw hwnd

/-- Witness for C5 at a concrete input. -/
theorem inventory_rows_per_product_witness :
    DB.empty.inventory = [] ∧ ([3] : List ℕ) ≠ [] ∧ ([3] : List ℕ).Nodup ∧
    ([7] : List ℕ).Nodup ∧ (7 : ℕ) ∈ ([7] : List ℕ) ∧
    invOKFor [3] ((generate_inventory DB.empty [7] [3] []).inventory.filter
      (fun r => r.product_id == 7)) :=
  ⟨rfl, by decide, by decide, by decide, by decide,
    inventory_rows_per_product DB.empty [7] [3] [] rfl (by decide) (by decide)
      (by decide) 7 (by decide)⟩

/-- Referential integrity of a database: every foreign key stored in a
child row is the primary key of some row of the parent table. -/
def refIntegrity (db : DB) : Prop :=
  (∀ p ∈ db.products, p.category_id ∈ categoryIds db ∧ p.supplier_id ∈ supplierIds db) ∧
  (∀ r ∈ db.inventory, r.product_id ∈ productIds db ∧ r.warehouse_id ∈ warehouseIds db) ∧
  (∀ o ∈ db.orders, o.customer_id ∈ customerIds db) ∧
  (∀ it ∈ db.order_items,
    it.order_id ∈ db.orders.map Order.order_id ∧ it.product_id ∈ productIds db) ∧
  (∀ rv ∈ db.reviews, rv.product_id ∈ productIds db ∧ rv.customer_id ∈ customerIds db) ∧
  (∀ t ∈ db.tickets, t.customer_id ∈ customerIds db)

theorem generate_products_fk (db : DB) (cids sids : List ℕ) (n : ℕ)
    (cs : List ProductChoices) (hc : cids ≠ []) (hs : sids ≠ []) :
    ∀ p ∈ (generate_products db cids sids n cs).products,
      p ∈ db.products ∨ (p.category_id ∈ cids ∧ p.supplier_id ∈ sids) := by
  intro p hp
  unfold generate_products at hp
  simp only [List.mem_append, List.mem_map, List.mem_range] at hp
  rcases hp with hp | ⟨i, _, rfl⟩
  · exact Or.inl hp
  · exact Or.inr ⟨choice_mem _ _ _ hc, choice_mem _ _ _ hs⟩

theorem invRowsFor_warehouse_mem (wids : List ℕ) (pid : ℕ) (c : InventoryChoices) :
    ∀ r ∈ invRowsFor wids pid c, r.warehouse_id ∈ wids := by
  intro r hr
  have hmem : r.warehouse_id ∈ (invRowsFor wids pid c).map InventoryRow.warehouse_id :=
    List.mem_map_of_mem _ hr
  rw [invRowsFor_warehouses] at hmem
  exact sample_subset _ _ _ _ hmem

theorem genInvRows_warehouse_mem (wids : List ℕ) :
    ∀ (pids : List ℕ) (cs : List InventoryChoices),
      ∀ r ∈ genInvRows wids pids cs, r.warehouse_id ∈ wids := by
  intro pids
  induction pids with
  | nil => intro cs r hr; cases hr
  | cons p rest ih =>
      intro cs r hr
      unfold genInvRows at hr
      rw [List.mem_append] at hr
      rcases hr with hr | hr
      · exact invRowsFor_warehouse_mem _ _ _ r hr
      · exact ih _ r hr

theorem generate_inventory_fk (db : DB) (pids wids : List ℕ)
    (cs : List InventoryChoices) :
    ∀ r ∈ (generate_inventory db pids wids cs).inventory,
      r ∈ db.inventory ∨ (r.product_id ∈ pids ∧ r.warehouse_id ∈ wids) := by
  intro r hr
  unfold generate_inventory at hr
  rw [List.mem_append] at hr
  rcases hr with hr | hr
  · exact Or.inl hr
  · exact Or.inr ⟨genInvRows_product_mem wids pids cs r hr,
      genInvRows_warehouse_mem wids pids cs r hr⟩

theorem generate_reviews_fk (db : DB) (cu pids : List ℕ) (n : ℕ)
    (cs : List ReviewChoices) (hcu : cu ≠ []) (hp : pids ≠ []) :
    ∀ rv ∈ (generate_reviews db cu pids n cs).reviews,
      rv ∈ db.reviews ∨ (rv.product_id ∈ pids ∧ rv.customer_id ∈ cu) := by
  intro rv hrv
  unfold generate_reviews at hrv
  simp only [List.mem_append, List.mem_map, List.mem_range] at hrv
  rcases hrv with hrv | ⟨i, _, rfl⟩
  · exact Or.inl hrv
  · exact Or.inr ⟨choice_mem _ _ _ hp, choice_mem _ _ _ hcu⟩

theorem generate_tickets_fk (db : DB) (cu : List ℕ) (n : ℕ)
    (cs : List TicketChoices) (hcu : cu ≠ []) :
    ∀ t ∈ (generate_tickets db cu n cs).tickets,
      t ∈ db.tickets ∨ t.customer_id ∈ cu := by
  intro t ht
  unfold generate_tickets at ht
  simp only [List.mem_append, List.mem_map, List.mem_range] at ht
  rcases ht with ht | ⟨i, _, rfl⟩
  · exact Or.inl ht
  · exact Or.inr (choice_mem _ _ _ hcu)

theorem genOrdersDB_frame (db : DB) (cu pids : List ℕ) (count : ℕ)
    (cs : List OrderChoices) :
    (genOrdersDB db cu pids count cs).categories = db.categories ∧
    (genOrdersDB db cu pids count cs).suppliers = db.suppliers ∧
    (genOrdersDB db cu pids count cs).products = db.products ∧
    (genOrdersDB db cu pids count cs).warehouses = db.warehouses ∧
    (genOrdersDB db cu pids count cs).inventory = db.inventory ∧
    (genOrdersDB db cu pids count cs).customers = db.customers ∧
    (genOrdersDB db cu pids count cs).reviews = db.reviews ∧
    (genOrdersDB db cu pids count cs).tickets = db.tickets := by
  unfold genOrdersDB
  have key : ∀ (l : List OrderChoices) (d : DB),
      (l.foldl (fun d c => genOrder d cu pids c) d).categories = d.categories ∧
      (l.foldl (fun d c => genOrder d cu pids c) d).suppliers = d.suppliers ∧
      (l.foldl (fun d c => genOrder d cu pids c) d).products = d.products ∧
      (l.foldl (fun d c => genOrder d cu pids c) d).warehouses = d.warehouses ∧
      (l.foldl (fun d c => genOrder d cu pids c) d).inventory = d.inventory ∧
      (l.foldl (fun d c => genOrder d cu pids c) d).customers = d.customers ∧
      (l.foldl (fun d c => genOrder d cu pids c) d).reviews = d.reviews ∧
      (l.foldl (fun d c => genOrder d cu pids c) d).tickets = d.tickets := by
    intro l
    induction l with
    | nil => intro d; exact ⟨rfl, rfl, rfl, rfl, rfl, rfl, rfl, rfl⟩
    | cons c rest ih =>
        intro d
        rw [List.foldl_cons]
        exact ih (genOrder d cu pids c)
  exact key _ db

theorem genOrders_fold_orders_mem (n0 : ℕ) (cu pids : List ℕ)
    (l : List OrderChoices) :
    ∀ db : DB, OrdersInv n0 cu pids db →
      ∀ o ∈ (l.foldl (fun d c => genOrder d cu pids c) db).orders,
        o ∈ db.orders ∨ db.nextOrderId ≤ o.order_id := by
  induction l with
  | nil => intro db _ o ho; exact Or.inl ho
  | cons c rest ih =>
      intro db hinv o ho
      rw [List.foldl_cons] at ho
      rcases ih (genOrder db cu pids c) (OrdersInv_step n0 cu pids db c hinv) o ho with
        h | h
      · rw [genOrder_orders db cu pids c hinv.1, List.mem_append] at h
        rcases h with h | h
        · exact Or.inl h
        · rw [List.mem_singleton] at h
          subst h
          exact Or.inr (Nat.le_refl _)
      · have : (genOrder db cu pids c).nextOrderId = db.nextOrderId + 1 := rfl
        rw [this] at h
        exact Or.inr (Nat.le_of_succ_le h)

theorem genOrders_fold_item_order (n0 : ℕ) (cu pids : List ℕ)
    (l : List OrderChoices) :
    ∀ db : DB, OrdersInv n0 cu pids db →
      (∀ it ∈ db.order_items, it.order_id ∈ db.orders.map Order.order_id) →
      ∀ it ∈ (l.foldl (fun d c => genOrder d cu pids c) db).order_items,
        it.order_id ∈
          ((l.foldl (fun d c => genOrder d cu pids c) db).orders.map Order.order_id) := by
  induction l with
  | nil => intro db _ h it hit; exact h it hit
  | cons c rest ih =>
      intro db hinv h it hit
      rw [List.foldl_cons] at hit ⊢
      refine ih (genOrder db cu pids c) (OrdersInv_step n0 cu pids db c hinv) ?_ it hit
      intro jt hjt
      have hoi : (genOrder db cu pids c).order_items =
          db.order_items ++ orderItemsFor db pids c := by rw [genOrder_eq]
      rw [hoi, List.mem_append] at hjt
      rw [genOrder_orders db cu pids c hinv.1, List.map_append, List.mem_append]
      rcases hjt with hjt | hjt
      · exact Or.inl (h jt hjt)
      · right
        rw [mkOrderItems_order_id _ _ _ _ jt hjt]
        rw [List.map_singleton, List.mem_singleton]
        rfl

theorem genOrders_fold_item_product (cu pids : List ℕ) (l : List OrderChoices) :
    ∀ db : DB,
      ∀ it ∈ (l.foldl (fun d c => genOrder d cu pids c) db).order_items,
        it ∈ db.order_items ∨ it.product_id ∈ pids := by
  induction l with
  | nil => intro db it hit; exact Or.inl hit
  | cons c rest ih =>
      intro db it hit
      rw [List.foldl_cons] at hit
      rcases ih (genOrder db cu pids c) it hit with h | h
      · have hoi : (genOrder db cu pids c).order_items =
            db.order_items ++ orderItemsFor db pids c := by rw [genOrder_eq]
        rw [hoi, List.mem_append] at h
        rcases h with h | h
        · exact Or.inl h
        · right
          have hmem : it.product_id ∈
              (orderItemsFor db pids c).map OrderItem.product_id :=
            List.mem_map_of_mem _ h
          rw [show orderItemsFor db pids c = mkOrderItems db.products db.nextOrderId
            (selectedOf pids c) c.items from rfl, mkOrderItems_map_product] at hmem
          exact sample_subset _ _ _ _ hmem
      · exact Or.inr h

theorem OrdersInv_init (db : DB) (cu pids : List ℕ)
    (hb : ∀ o ∈ db.orders, o.order_id < db.nextOrderId)
    (hbi : ∀ it ∈ db.order_items, it.order_id < db.nextOrderId) :
    OrdersInv db.nextOrderId cu pids db := by
  refine ⟨hb, hbi, ?_, ?_⟩
  · intro o ho hn0
    exact absurd hn0 (Nat.not_le_of_lt (hb o ho))
  · intro it hit hn0
    exact absurd hn0 (Nat.not_le_of_lt (hbi it hit))

theorem genOrdersDB_orders_mem (db : DB) (cu pids : List ℕ) (count : ℕ)
    (cs : List OrderChoices)
    (hb : ∀ o ∈ db.orders, o.order_id < db.nextOrderId)
    (hbi : ∀ it ∈ db.order_items, it.order_id < db.nextOrderId) :
    ∀ o ∈ (genOrdersDB db cu pids count cs).orders,
      o ∈ db.orders ∨ db.nextOrderId ≤ o.order_id :=
  genOrders_fold_orders_mem db.nextOrderId cu pids _ db (OrdersInv_init db cu pids hb hbi)

theorem genOrdersDB_item_order (db : DB) (cu pids : List ℕ) (count : ℕ)
    (cs : List OrderChoices)
    (hb : ∀ o ∈ db.orders, o.order_id < db.nextOrderId)
    (hbi : ∀ it ∈ db.order_items, it.order_id < db.nextOrderId)
    (h : ∀ it ∈ db.order_items, it.order_id ∈ db.orders.map Order.order_id) :
    ∀ it ∈ (genOrdersDB db cu pids count cs).order_items,
      it.order_id ∈ (genOrdersDB db cu pids count cs).orders.map Order.order_id :=
  genOrders_fold_item_order db.nextOrderId cu pids _ db
    (OrdersInv_init db cu pids hb hbi) h

theorem genOrdersDB_item_product (db : DB) (cu pids : List ℕ) (count : ℕ)
    (cs : List OrderChoices) :
    ∀ it ∈ (genOrdersDB db cu pids count cs).order_items,
      it ∈ db.order_items ∨ it.product_id ∈ pids :=
  genOrders_fold_item_product cu pids _ db

/-! Lengths of the re-queried id lists. -/

theorem categoryIds_gen_length (db : DB) (ds : List String) :
    (categoryIds (generate_categories db ds)).length = db.categories.length + 10 := by
  unfold categoryIds generate_categories
  simp [List.length_append, List.enum_length, categoryNames]

theorem supplierIds_gen_length (db : DB) (n : ℕ) (cs : List SupplierChoices) :
    (supplierIds (generate_suppliers db n cs)).length = db.suppliers.length + n := by
  unfold supplierIds generate_suppliers
  simp [List.length_append]

theorem productIds_gen_length (db : DB) (cids sids : List ℕ) (n : ℕ)
    (cs : List ProductChoices) :
    (productIds (generate_products db cids sids n cs)).length =
      db.products.length + n := by
  unfold productIds generate_products
  simp [List.length_append]

theorem warehouseIds_gen_length (db : DB) (n : ℕ) (cs : List WarehouseChoices) :
    (warehouseIds (generate_warehouses db n cs)).length = db.warehouses.length + n := by
  unfold warehouseIds generate_warehouses
  simp [List.length_append]

theorem customerIds_gen_length (db : DB) (n : ℕ) (cs : List CustomerChoices) :
    (customerIds (generate_customers db n cs)).length = db.customers.length + n := by
  unfold customerIds generate_customers
  simp [List.length_append]

/-- Referential integrity of the stage chain of `main`, stated over
explicitly named intermediate databases. -/
theorem refIntegrity_chain (pc : PipelineChoices)
    (db1 db2 db3 db4 db5 db6 db7 db8 db9 : DB)
    (h1 : db1 = generate_categories DB.empty pc.catDescrs)
    (h2 : db2 = generate_suppliers db1 30 pc.suppliers)
    (h3 : db3 = generate_products db2 (categoryIds db1) (supplierIds db2) 300 pc.products)
    (h4 : db4 = generate_warehouses db3 5 pc.warehouses)
    (h5 : db5 = generate_inventory db4 (productIds db3) (warehouseIds db4) pc.inventory)
    (h6 : db6 = generate_customers db5 3000 pc.customers)
    (h7 : db7 = genOrdersDB db6 (customerIds db6) (productIds db3) 5000 pc.orders)
    (h8 : db8 = generate_reviews db7 (customerIds db6) (productIds db3) 1500 pc.reviews)
    (h9 : db9 = generate_tickets db8 (customerIds db6) 500 pc.tickets) :
    refIntegrity db9 := by
  -- empty parent tables before each stage
  have e2p : db2.products = [] := by rw [h2, h1]; rfl
  have e4i : db4.inventory = [] := by rw [h4, h3, h2, h1]; rfl
  have e6o : db6.orders = [] := by rw [h6, h5, h4, h3, h2, h1]; rfl
  have e6it : db6.order_items = [] := by rw [h6, h5, h4, h3, h2, h1]; rfl
  have hb6 : ∀ o ∈ db6.orders, o.order_id < db6.nextOrderId := by
    rw [e6o]; intro o ho; cases ho
  have hbi6 : ∀ it ∈ db6.order_items, it.order_id < db6.nextOrderId := by
    rw [e6it]; intro it hit; cases hit
  -- the frame of the order stage
  have hframe := genOrdersDB_frame db6 (customerIds db6) (productIds db3) 5000 pc.orders
  rw [← h7] at hframe
  -- final tables in terms of the stage that builds them
  have hcat : db9.categories = db1.categories := by
    rw [h9, h8]
    show db7.categories = db1.categories
    rw [hframe.1, h6, h5, h4, h3, h2]
    rfl
  have hsupp : db9.suppliers = db2.suppliers := by
    rw [h9, h8]
    show db7.suppliers = db2.suppliers
    rw [hframe.2.1, h6, h5, h4, h3]
    rfl
  have hprod : db9.products = db3.products := by
    rw [h9, h8]
    show db7.products = db3.products
    rw [hframe.2.2.1, h6, h5, h4]
    rfl
  have hwh : db9.warehouses = db4.warehouses := by
    rw [h9, h8]
    show db7.warehouses = db4.warehouses
    rw [hframe.2.2.2.1, h6, h5]
    rfl
  have hinvt : db9.inventory = db5.inventory := by
    rw [h9, h8]
    show db7.inventory = db5.inventory
    rw [hframe.2.2.2.2.1, h6]
    rfl
  have hcust : db9.customers = db6.customers := by
    rw [h9, h8]
    show db7.customers = db6.customers
    rw [hframe.2.2.2.2.2.1]
  have hrev7 : db7.reviews = [] := by
    rw [hframe.2.2.2.2.2.2.1, h6, h5, h4, h3, h2, h1]
    rfl
  have htick8 : db8.tickets = [] := by
    rw [h8]
    show db7.tickets = []
    rw [hframe.2.2.2.2.2.2.2, h6, h5, h4, h3, h2, h1]
    rfl
  have hords : db9.orders = db7.orders := by rw [h9, h8]; rfl
  have hitems : db9.order_items = db7.order_items := by rw [h9, h8]; rfl
  -- id lists of the final database
  have hcids : categoryIds db9 = categoryIds db1 := by
    unfold categoryIds; rw [hcat]
  have hsids : supplierIds db9 = supplierIds db2 := by
    unfold supplierIds; rw [hsupp]
  have hpids : productIds db9 = productIds db3 := by
    unfold productIds; rw [hprod]
  have hwids : warehouseIds db9 = warehouseIds db4 := by
    unfold warehouseIds; rw [hwh]
  have hcuids : customerIds db9 = customerIds db6 := by
    unfold customerIds; rw [hcust]
  -- the parent id lists are nonempty
  have hc_ne : categoryIds db1 ≠ [] := by
    have hlen : (categoryIds db1).length = 10 := by
      rw [h1, categoryIds_gen_length]
      rfl
    intro hnil
    rw [hnil] at hlen
    cases hlen
  have hs_ne : supplierIds db2 ≠ [] := by
    have hlen : (supplierIds db2).length = 30 := by
      rw [h2, supplierIds_gen_length, h1]
      rfl
    intro hnil
    rw [hnil] at hlen
    cases hlen
  have hp_ne : productIds db3 ≠ [] := by
    have hlen : (productIds db3).length = 300 := by
      rw [h3, productIds_gen_length, h2, h1]
      rfl
    intro hnil
    rw [hnil] at hlen
    cases hlen
  have hcu_ne : customerIds db6 ≠ [] := by
    have hlen : (customerIds db6).length = 3000 := by
      rw [h6, customerIds_gen_length, h5, h4, h3, h2, h1]
      rfl
    intro hnil
    rw [hnil] at hlen
    cases hlen
  refine ⟨?_, ?_, ?_, ?_, ?_, ?_⟩
  · -- products reference categories and suppliers
    intro p hp
    rw [hprod, h3] at hp
    rcases generate_products_fk db2 (categoryIds db1) (supplierIds db2) 300 pc.products
      hc_ne hs_ne p hp with h | ⟨ha, hb⟩
    · rw [e2p] at h; cases h
    · rw [hcids, hsids]
      exact ⟨ha, hb⟩
  · -- inventory references products and warehouses
    intro r hr
    rw [hinvt, h5] at hr
    rcases generate_inventory_fk db4 (productIds db3) (warehouseIds db4) pc.inventory
      r hr with h | ⟨ha, hb⟩
    · rw [e4i] at h; cases h
    · rw [hpids, hwids]
      exact ⟨ha, hb⟩
  · -- orders reference customers
    intro o ho
    rw [hords, h7] at ho
    have hinv := genOrdersDB_inv db6 (customerIds db6) (productIds db3) 5000 pc.orders
      hb6 hbi6
    rcases genOrdersDB_orders_mem db6 (customerIds db6) (productIds db3) 5000 pc.orders
      hb6 hbi6 o ho with h | h
    · rw [e6o] at h; cases h
    · rw [hcuids]
      exact ((hinv.2.2.1 o ho h).2) hcu_ne
  · -- order items reference orders and products
    intro it hit
    rw [hitems, h7] at hit
    constructor
    · have h := genOrdersDB_item_order db6 (customerIds db6) (productIds db3) 5000
        pc.orders hb6 hbi6 (by rw [e6it]; intro jt hjt; cases hjt) it hit
      rw [hords, h7]
      exact h
    · rcases genOrdersDB_item_product db6 (customerIds db6) (productIds db3) 5000
        pc.orders it hit with h | h
      · rw [e6it] at h; cases h
      · rw [hpids]
        exact h
  · -- reviews reference products and customers
    intro rv hrv
    rw [h9] at hrv
    have hrv' : rv ∈ db8.reviews := hrv
    rw [h8] at hrv'
    rcases generate_reviews_fk db7 (customerIds db6) (productIds db3) 1500 pc.reviews
      hcu_ne hp_ne rv hrv' with h | ⟨ha, hb⟩
    · rw [hrev7] at h; cases h
    · rw [hpids, hcuids]
      exact ⟨ha, hb⟩
  · -- tickets reference customers
    intro t ht
    rw [h9] at ht
    rcases generate_tickets_fk db8 (customerIds db6) 500 pc.tickets hcu_ne t ht with
      h | h
    · rw [htick8] at h; cases h
    · rw [hcuids]
      exact h

theorem refIntegrity_finalDB (pc : PipelineChoices) : refIntegrity (finalDB pc) :=
  refIntegrity_chain pc _ _ _ _ _ _ _ _ _ rfl rfl rfl rfl rfl rfl rfl rfl rfl

/-- C4.  In the final committed database of a fully successful run of the
pipeline, every foreign key written by a child-entity generator is the
primary key of a row of its parent table: each parent's id list is fully
materialized (and re-queried from the table) before any child generator
consumes it, so referential integrity holds by construction. -/
theorem pipeline_referential_integrity (pc : PipelineChoices) :
    refIntegrity ((mainRun pc none).committed) := by
  have h : (mainRun pc none).committed = finalDB pc := by
    rw [mainRun_none, finalState_committed, finalState_current]
  rw [h]
  exact refIntegrity_finalDB pc

end EcomGen
